import Mathlib

/-!
# Dashboard SQL access: rows, tokens, versions

A shallow embedding of `pkg/registry/apis/dashboard/access/sql_dashboards.go`
(`getRows`, `doQuery`, `rowsWrapper.Next`, `scanRow`, `DeleteDashboard`,
`SaveDashboard`) together with the store contract exercised by
`pkg/storage/unified/resource/writer_test.go`, `ReadCfg` of
`pkg/services/authz/config.go` and `NewDingDingNotifier` of
`pkg/services/ngalert/notifier/channels/dingding.go`.

Conventions of the embedding:

* Go `int64`/`int` values are `Int`; every arithmetic result that Go stores in a
  64-bit signed integer goes through `wrapInt64`.
* A Go `error` is its message (`Error := String`); `nil` is `none`.
* A nil pointer dereference is the `Outcome.fault` result.
* The database is an explicit state `σ`; reads are functions of the state and
  writes return the next state.
-/

set_option autoImplicit false

namespace DashboardAccess

/-! ## Machine integers, errors, faults -/

/-- Two's complement wrap-around of a mathematical integer into the `int64` range. -/
def wrapInt64 (x : Int) : Int := (x + 2 ^ 63) % 2 ^ 64 - 2 ^ 63

/-- Membership in the `int64` range. -/
def inInt64 (x : Int) : Prop := -(2 ^ 63) ≤ x ∧ x < 2 ^ 63

instance (x : Int) : Decidable (inInt64 x) := by
  unfold inInt64
  infer_instance

/-- A Go `error` value, identified by its message. -/
abbrev Error := String

/-- Result of running a piece of Go code that may dereference a nil pointer. -/
inductive Outcome (α : Type) where
  | ret (value : α)
  | fault (msg : String)
deriving DecidableEq, Repr

/-! ## Values carried by a row -/

/-- A `time.Time`, as the number of nanoseconds since the Unix epoch. -/
structure Time where
  nanos : Int
deriving DecidableEq, Repr

/-- The `time.Time.UnixNano` method: nanoseconds since the epoch as an `int64`. -/
def Time.UnixNano (t : Time) : Int := wrapInt64 t.nanos

/-- The `time.Time.Unix` method: whole seconds since the epoch. -/
def Time.Unix (t : Time) : Int := Int.fdiv t.nanos 1000000000

/-- The `time.Unix(sec, 0)` constructor. -/
def timeUnix (sec : Int) : Time := ⟨sec * 1000000000⟩

/-- A value of the generic JSON document held in `Dashboard.Spec`. -/
inductive JsonValue where
  | str (s : String)
  | int (n : Int)
  | other (tag : Nat)
deriving DecidableEq, Repr

/-- The `common.Unstructured` document: a string-keyed object. -/
structure Unstructured where
  Object : List (String × JsonValue) := []
deriving DecidableEq, Repr

/-- The `Unstructured.Set(key, value)` method. -/
def Unstructured.Set (u : Unstructured) (key : String) (v : JsonValue) : Unstructured :=
  ⟨(key, v) :: u.Object.filter (fun kv => kv.1 ≠ key)⟩

/-- The `Unstructured.Remove(key)` method. -/
def Unstructured.Remove (u : Unstructured) (key : String) : Unstructured :=
  ⟨u.Object.filter (fun kv => kv.1 ≠ key)⟩

/-- The `Unstructured.GetNestedString(key)` method: the string under `key`, else `""`. -/
def Unstructured.GetNestedString (u : Unstructured) (key : String) : String :=
  match u.Object.lookup key with
  | some (JsonValue.str s) => s
  | _ => ""

/-- The `Unstructured.GetNestedInt64(key)` method: the integer under `key`, else `0`. -/
def Unstructured.GetNestedInt64 (u : Unstructured) (key : String) : Int :=
  match u.Object.lookup key with
  | some (JsonValue.int n) => n
  | _ => 0

/-- The identity namespaces used by `scanRow`. -/
inductive IdentityNamespace where
  | NamespaceUser
  | NamespaceProvisioning
deriving DecidableEq, Repr

/-- The value built by `identity.NewNamespaceID(namespace, id)`; the metadata setters
receive its `String()` rendering, which is kept structured here. -/
structure NamespaceID where
  ns : IdentityNamespace
  id : Int
deriving DecidableEq, Repr

/-- The `utils.ResourceOriginInfo` record. -/
structure ResourceOriginInfo where
  Name : String
  Path : String
  Hash : String := ""
  Timestamp : Option Time := none
deriving DecidableEq, Repr

/-- The Grafana metadata reached through `utils.MetaAccessor`: one slot per setter
(`SetUpdatedTimestamp`, `SetSlug`, `SetCreatedBy`, `SetUpdatedBy`, `SetFolder`,
`SetOriginInfo`). -/
structure GrafanaMeta where
  updatedTimestamp : Option Time := none
  slug : Option String := none
  createdBy : Option NamespaceID := none
  updatedBy : Option NamespaceID := none
  folder : Option String := none
  originInfo : Option ResourceOriginInfo := none
deriving DecidableEq, Repr

/-- The `dashboardsV0.Dashboard` object, restricted to the fields the access layer touches. -/
structure Dashboard where
  Name : String := ""
  Namespace : String := ""
  UID : String := ""
  ResourceVersion : String := ""
  CreationTimestamp : Option Time := none
  Annotations : GrafanaMeta := {}
  Spec : Unstructured := {}
deriving DecidableEq, Repr

/-- Modelled from the spec: the `continueToken` type is declared in another file of the
package; the spec gives its content as (organization id, last-seen numeric row id,
cumulative byte offset). -/
structure continueToken where
  orgId : Int
  id : Int
  bytes : Int := 0
deriving DecidableEq, Repr

/-- The `dashboardRow` struct. -/
structure dashboardRow where
  ResourceVersion : Int := 0
  Dash : Dashboard
  Title : String := ""
  FolderUID : String := ""
  Bytes : Int := 0
  token : continueToken
deriving DecidableEq, Repr

/-- One row of an open `*sql.Rows` cursor, seen through `rows.Scan` with the
destinations of `scanRow`: the error `Scan` returns (if any) and the value each
destination holds afterwards. Nullable columns (`sql.NullString`, `sql.NullInt64`)
are `Option`s. -/
structure SqlRow where
  scanErr : Option Error := none
  org_id : Int
  id : Int
  uid : String
  slug : String := ""
  folder_uid : Option String := none
  created : Time := ⟨0⟩
  created_by : Int := 0
  created_uid : Option String := none
  updated : Time := ⟨0⟩
  updated_by : Int := 0
  updated_uid : Option String := none
  plugin_id : String := ""
  origin_name : Option String := none
  origin_path : Option String := none
  origin_key : Option String := none
  origin_ts : Option Int := none
  version : Int := 0
  title : String := ""
  data : List Nat := []
deriving DecidableEq, Repr

/-- An argument bound to a SQL placeholder (`[]any` holding `int64`, `int` or `string`). -/
inductive SqlArg where
  | int (n : Int)
  | str (s : String)
deriving DecidableEq, Repr

/-! ## Collaborators -/

/-- The request context: what `identity.GetRequester` and `appcontext.User` find in it. -/
structure Context where
  requesterErr : Option Error := none
  user : Except Error Int := .ok 1

/-- The `dashboards.Dashboard` model returned by the dashboard store. -/
structure StoredDashboard where
  ID : Int
  UID : String
  Created : Time := ⟨0⟩
  Updated : Time := ⟨0⟩
deriving DecidableEq, Repr

/-- The `dashboards.GetDashboardQuery` command. -/
structure GetDashboardQuery where
  OrgID : Int
  UID : String
deriving DecidableEq, Repr

/-- The `dashboards.SaveDashboardCommand` command. -/
structure SaveDashboardCommand where
  OrgID : Int
  Dashboard : Unstructured
  FolderUID : String
  Overwrite : Bool
  UserID : Int
deriving DecidableEq, Repr

/-- The `dashboards.DeleteDashboardCommand` command. -/
structure DeleteDashboardCommand where
  OrgID : Int
  ID : Int
deriving DecidableEq, Repr

/-- The `dashboards.Store` interface over a database state `σ`; its implementation is
lives in the `dashboards` service package, so it is a parameter here. -/
structure DashStore (σ : Type) where
  GetDashboard : σ → GetDashboardQuery → Option StoredDashboard
  SaveDashboard : σ → SaveDashboardCommand → σ × Option StoredDashboard × Option Error
  DeleteDashboard : σ → DeleteDashboardCommand → σ × Option Error

/-- The `dashboardSqlAccess` struct over a database state `σ`. The fields `sess`,
`namespacer`, `dashStore` and `provisioning` are the struct's own; the remaining fields
stand for code the struct calls that lies in other files and packages: its sibling method
`GetDashboard`, `utils.MetaAccessor` (which fails or not by the object's type only),
`gapiutil.CalculateClusterWideUID`, `filepath.Rel`, `Unstructured.UnmarshalJSON` and the
two scope providers of the `dashboards` package. -/
structure dashboardSqlAccess (σ : Type) where
  sess : σ → String → List SqlArg → Option (List SqlRow) × Option Error
  namespacer : Int → String
  dashStore : DashStore σ
  provisioning : String → String
  GetDashboard : σ → Context → Int → String → Option Dashboard × Int × Option Error
  metaAccessorErr : Option Error
  calculateClusterWideUID : Dashboard → String
  filepathRel : String → String → Except Error String
  unmarshalJSON : List Nat → Except Error Unstructured
  dashboardScopeUID : String → String
  folderScopeUID : String → String

/-- The `DashboardQuery` struct, restricted to the fields `getRows` reads. -/
structure DashboardQuery where
  OrgID : Int
  UID : String := ""
  Limit : Int := 0
  MinID : Int := 0
  Labels : List String := []
deriving DecidableEq, Repr

/-! ## scanRow -/

section Access
variable {σ : Type}

/-- The owner metadata written by `scanRow` (lines 236-245): both branches call
`SetCreatedBy`. -/
def setOwners (m : GrafanaMeta) (createdByID updatedByID : Int) : GrafanaMeta :=
  let m1 : GrafanaMeta :=
    if createdByID > 0 then
      { m with createdBy := some ⟨IdentityNamespace.NamespaceUser, createdByID⟩ }
    else if createdByID < 0 then
      { m with createdBy := some ⟨IdentityNamespace.NamespaceProvisioning, 0⟩ }
    else m
  if updatedByID > 0 then
    { m1 with createdBy := some ⟨IdentityNamespace.NamespaceUser, updatedByID⟩ }
  else if updatedByID < 0 then
    { m1 with createdBy := some ⟨IdentityNamespace.NamespaceProvisioning, 0⟩ }
  else m1

/-- The folder reference written by `scanRow` (lines 246-249). -/
def setFolder (m : GrafanaMeta) (folder_uid : Option String) : GrafanaMeta :=
  match folder_uid with
  | some f => { m with folder := some f }
  | none => m

/-- The origin metadata computed by `scanRow` (lines 251-274): `Except.error` when
`filepath.Rel` fails, otherwise the origin handed to `SetOriginInfo`, if any. -/
def originOf (a : dashboardSqlAccess σ) (rows : SqlRow) :
    Except Error (Option ResourceOriginInfo) :=
  match rows.origin_name with
  | some name =>
    let ts := timeUnix (rows.origin_ts.getD 0)
    let resolvedPath := a.provisioning name
    match a.filepathRel resolvedPath (rows.origin_path.getD "") with
    | .error err => .error err
    | .ok originPath =>
      .ok (some { Name := name, Path := originPath,
                  Hash := rows.origin_key.getD "", Timestamp := some ts })
  | none =>
    if rows.plugin_id ≠ "" then .ok (some { Name := "plugin", Path := rows.plugin_id })
    else .ok none

/-- The `SetOriginInfo` setter of the meta accessor: it clears the origin recorded so far
and records the new one only when its name is not empty. -/
def setOriginInfo (m : GrafanaMeta) (info : ResourceOriginInfo) : GrafanaMeta :=
  if info.Name = "" then { m with originInfo := none } else { m with originInfo := some info }

/-- The origin that `SetOriginInfo` leaves recorded for the origin `scanRow` computed. -/
def recordedOrigin (origin : Option ResourceOriginInfo) : Option ResourceOriginInfo :=
  match origin with
  | some info => if info.Name = "" then none else some info
  | none => none

/-- The `dashboardSqlAccess.scanRow` method: decode the current cursor row. -/
def dashboardSqlAccess.scanRow (a : dashboardSqlAccess σ) (rows : SqlRow) :
    Option dashboardRow × Option Error :=
  let dash : Dashboard := { Name := rows.uid }
  let row : dashboardRow :=
    { Dash := dash, Title := rows.title, token := { orgId := rows.org_id, id := rows.id } }
  match rows.scanErr with
  | some err => (some row, some err)
  | none =>
    let rv := wrapInt64 (rows.updated.UnixNano + rows.version)
    let dash := { dash with ResourceVersion := toString rv, Namespace := a.namespacer rows.org_id }
    let dash := { dash with UID := a.calculateClusterWideUID dash }
    let dash := { dash with CreationTimestamp := some rows.created }
    match a.metaAccessorErr with
    | some err => (none, some err)
    | none =>
      let m := { dash.Annotations with
                 updatedTimestamp := some rows.updated, slug := some rows.slug }
      let m := setOwners m rows.created_by rows.updated_by
      let m := setFolder m rows.folder_uid
      let folderUID := rows.folder_uid.getD ""
      match originOf a rows with
      | .error err => (none, some err)
      | .ok origin =>
        let m := match origin with
          | some info => setOriginInfo m info
          | none => m
        let dash := { dash with Annotations := m }
        let bytes : Int := rows.data.length
        let row := { row with ResourceVersion := rv, Dash := dash,
                              FolderUID := folderUID, Bytes := bytes }
        if bytes > 0 then
          match a.unmarshalJSON rows.data with
          | .error err => (some row, some err)
          | .ok spec =>
            let spec := spec.Set "id" (JsonValue.int rows.id)
            (some { row with Dash := { dash with Spec := spec },
                             Title := spec.GetNestedString "title" }, none)
        else (some row, none)

/-! ## rowsWrapper -/

/-- The `rowsWrapper` struct; `rows` is the unread remainder of the cursor (`none` for a
nil `*sql.Rows`). -/
structure rowsWrapper (σ : Type) where
  a : dashboardSqlAccess σ
  rows : Option (List SqlRow)
  idx : Nat := 0
  total : Int := 0
  canReadDashboard : List String → Bool

/-- The scopes handed to the access checker for a decoded row (lines 169-172). -/
def rowScopes (a : dashboardSqlAccess σ) (d : dashboardRow) : List String :=
  let scopes := [a.dashboardScopeUID d.Dash.Name]
  if d.FolderUID ≠ "" then scopes ++ [a.folderScopeUID d.FolderUID] else scopes

/-- What one call of `Next` hands back, with the wrapper fields it leaves behind. -/
structure NextState where
  row : Option dashboardRow
  err : Option Error
  rest : List SqlRow
  idx : Nat
  total : Int
deriving DecidableEq, Repr

/-- The loop of `rowsWrapper.Next` over the unread cursor rows. -/
def nextLoop (a : dashboardSqlAccess σ) (canRead : List String → Bool) :
    List SqlRow → Nat → Int → NextState
  | [], idx, total => ⟨none, none, [], idx, total⟩
  | raw :: rest, idx, total =>
    match a.scanRow raw with
    | (some d, err) =>
      if !canRead (rowScopes a d) then nextLoop a canRead rest (idx + 1) total
      else
        ⟨some { d with token := { d.token with bytes := total } }, err, rest, idx + 1,
          wrapInt64 (total + d.Bytes)⟩
    | (none, err) => ⟨none, err, rest, idx + 1, total⟩

/-- The `rowsWrapper.Next` method: the returned pair and the wrapper afterwards. -/
def rowsWrapper.Next (r : rowsWrapper σ) :
    Outcome ((Option dashboardRow × Option Error) × rowsWrapper σ) :=
  match r.rows with
  | none => .fault "nil pointer dereference"
  | some rs =>
    let s := nextLoop r.a r.canReadDashboard rs r.idx r.total
    .ret ((s.row, s.err), { r with rows := some s.rest, idx := s.idx, total := s.total })

/-! ## getRows and doQuery -/

/-- The `selector` constant: the column list and joins every dashboard query starts with. -/
def selector : String :=
  String.intercalate "\n"
    [ "SELECT",
      "\tdashboard.org_id, dashboard.id,",
      "\tdashboard.uid,slug,",
      "\tdashboard.folder_uid,",
      "\tdashboard.created,dashboard.created_by,CreatedUSER.uid as created_uid,",
      "\tdashboard.updated,dashboard.updated_by,UpdatedUSER.uid as updated_uid,",
      "\tplugin_id,",
      "\tdashboard_provisioning.name as origin_name,",
      "\tdashboard_provisioning.external_id as origin_path,",
      "\tdashboard_provisioning.check_sum as origin_key,",
      "\tdashboard_provisioning.updated as origin_ts,",
      "\tdashboard.version,",
      "\ttitle,",
      "\tdashboard.data",
      "  FROM dashboard",
      "  LEFT OUTER JOIN dashboard_provisioning ON dashboard.id = dashboard_provisioning.dashboard_id",
      "  LEFT OUTER JOIN user AS CreatedUSER ON dashboard.created_by = CreatedUSER.id",
      "  LEFT OUTER JOIN user AS UpdatedUSER ON dashboard.created_by = UpdatedUSER.id",
      "  WHERE is_folder = false" ]

/-- What the access layer does to the SQL session, in order. -/
inductive Event where
  | query (sqlcmd : String) (args : List SqlArg)
  | close
deriving DecidableEq, Repr

/-- The `dashboardSqlAccess.doQuery` method: the session calls it makes and the
`(*rowsWrapper, error)` pair it returns. The wrapper is built whatever the session
answers, around the cursor the session returned. -/
def dashboardSqlAccess.doQuery (a : dashboardSqlAccess σ) (s : σ) (ctx : Context)
    (query : String) (args : List SqlArg) :
    List Event × Option (rowsWrapper σ) × Option Error :=
  match ctx.requesterErr with
  | some err => ([], none, some err)
  | none =>
    let res := a.sess s query args
    ([Event.query query args],
      some { a := a, rows := res.1, canReadDashboard := fun _ => true }, res.2)

/-- The `rowsWrapper.Close` method: closes the inner cursor, which must not be nil. -/
def rowsWrapper.Close (r : rowsWrapper σ) : Outcome (List Event) :=
  match r.rows with
  | none => .fault "nil pointer dereference"
  | some _ => .ret [Event.close]

/-- The triple `getRows` returns. -/
structure GetRowsResult (σ : Type) where
  rows : Option (rowsWrapper σ)
  limit : Int
  err : Option Error

/-- The SQL text and bound arguments `getRows` builds for a label-free query
(lines 103-120), with the effective page size. -/
def buildQuery (query : DashboardQuery) : String × List SqlArg × Int :=
  let args := [SqlArg.int query.OrgID]
  let sqlcmd := selector ++ " AND dashboard.org_id=$" ++ toString args.length
  let limit := if query.Limit < 1 then 15 else query.Limit
  let p : List SqlArg × String :=
    if query.UID ≠ "" then
      let args := args ++ [SqlArg.str query.UID]
      (args, sqlcmd ++ " AND dashboard.uid=$" ++ toString args.length)
    else if query.MinID > 0 then
      let args := args ++ [SqlArg.int query.MinID]
      (args, sqlcmd ++ " AND dashboard.id>=$" ++ toString args.length)
    else (args, sqlcmd)
  let args := p.1 ++ [SqlArg.int (wrapInt64 (limit + 2))]
  let sqlcmd := p.2 ++ " ORDER BY dashboard.id asc LIMIT $" ++ toString args.length
  (sqlcmd, args, limit)

/-- The `dashboardSqlAccess.getRows` method: the session calls it makes and what it
returns. -/
def dashboardSqlAccess.getRows (a : dashboardSqlAccess σ) (s : σ) (ctx : Context)
    (query : DashboardQuery) : List Event × Outcome (GetRowsResult σ) :=
  if query.Labels.length > 0 then
    ([], .ret ⟨none, 0, some "labels not yet supported"⟩)
  else
    let q := buildQuery query
    let limit := q.2.2
    match a.doQuery s ctx q.1 q.2.1 with
    | (ev, rows, some err) =>
      match rows with
      | some w =>
        match w.Close with
        | .fault msg => (ev, .fault msg)
        | .ret ev2 => (ev ++ ev2, .ret ⟨none, limit, some err⟩)
      | none => (ev, .ret ⟨none, limit, some err⟩)
    | (ev, rows, none) => (ev, .ret ⟨rows, limit, none⟩)

/-- One answer of `Next`, tagged with the cursor position (`r.idx`) it was read at. -/
structure Yield where
  idx : Nat
  row : Option dashboardRow
  err : Option Error
deriving DecidableEq, Repr

/-- The answers of `n` successive calls of `Next` on a wrapper (a caller that keeps
pulling); a faulting call ends the run. -/
def rowsWrapper.pull : Nat → rowsWrapper σ → List Yield
  | 0, _ => []
  | n + 1, r =>
    match r.Next with
    | .fault _ => []
    | .ret (res, r1) => ⟨r1.idx, res.1, res.2⟩ :: rowsWrapper.pull n r1

/-! ## DeleteDashboard and SaveDashboard -/

/-- A call made on the dashboard store. -/
inductive StoreCall where
  | get (q : GetDashboardQuery)
  | save (cmd : SaveDashboardCommand)
  | delete (cmd : DeleteDashboardCommand)
deriving DecidableEq, Repr

/-- What a mutation leaves behind: the database state, the store calls made, and the
`(*Dashboard, bool, error)` triple returned. -/
structure Mutation (σ : Type) where
  state : σ
  calls : List StoreCall
  result : Outcome (Option Dashboard × Bool × Option Error)

/-- The `dashboardSqlAccess.DeleteDashboard` method. -/
def dashboardSqlAccess.DeleteDashboard (a : dashboardSqlAccess σ) (s : σ) (ctx : Context)
    (orgId : Int) (uid : String) : Mutation σ :=
  match a.GetDashboard s ctx orgId uid with
  | (_, _, some err) => ⟨s, [], .ret (none, false, some err)⟩
  | (none, _, none) => ⟨s, [], .fault "nil pointer dereference"⟩
  | (some dash, _, none) =>
    let id := dash.Spec.GetNestedInt64 "id"
    if id = 0 then ⟨s, [], .ret (none, false, some "could not find id in saved body")⟩
    else
      let cmd : DeleteDashboardCommand := { OrgID := orgId, ID := id }
      match a.dashStore.DeleteDashboard s cmd with
      | (s1, some err) => ⟨s1, [StoreCall.delete cmd], .ret (none, false, some err)⟩
      | (s1, none) => ⟨s1, [StoreCall.delete cmd], .ret (some dash, true, none)⟩

/-- The document `SaveDashboard` sends to the store, the provisional `created` flag and
the store lookups made on the way (lines 318-335). -/
def prepareSpec (a : dashboardSqlAccess σ) (s : σ) (orgId : Int) (dash : Dashboard) :
    Unstructured × Bool × List StoreCall :=
  if dash.Name ≠ "" then
    let spec := dash.Spec.Set "uid" (JsonValue.str dash.Name)
    let q : GetDashboardQuery := { OrgID := orgId, UID := dash.Name }
    match a.dashStore.GetDashboard s q with
    | some old => (spec.Set "id" (JsonValue.int old.ID), false, [StoreCall.get q])
    | none => (spec.Remove "id", true, [StoreCall.get q])
  else ((dash.Spec.Remove "id").Remove "uid", false, [])

/-- The `dashboardSqlAccess.SaveDashboard` method. -/
def dashboardSqlAccess.SaveDashboard (a : dashboardSqlAccess σ) (s : σ) (ctx : Context)
    (orgId : Int) (dash : Dashboard) : Mutation σ :=
  match ctx.user with
  | .error err => ⟨s, [], .ret (none, false, some err)⟩
  | .ok userID =>
    let p := prepareSpec a s orgId dash
    match a.metaAccessorErr with
    | some err => ⟨s, p.2.2, .ret (none, false, some err)⟩
    | none =>
      let cmd : SaveDashboardCommand :=
        { OrgID := orgId, Dashboard := p.1, FolderUID := dash.Annotations.folder.getD "",
          Overwrite := true, UserID := userID }
      match a.dashStore.SaveDashboard s cmd with
      | (s1, _, some err) => ⟨s1, p.2.2 ++ [StoreCall.save cmd], .ret (none, false, some err)⟩
      | (s1, none, none) => ⟨s1, p.2.2 ++ [StoreCall.save cmd], .fault "nil pointer dereference"⟩
      | (s1, some out, none) =>
        let created := decide (out.Created.Unix = out.Updated.Unix)
        let res := a.GetDashboard s1 ctx orgId out.UID
        ⟨s1, p.2.2 ++ [StoreCall.save cmd], .ret (res.1, created, res.2.2)⟩

end Access

/-! ## The versioned store contract

`writer_test.go` drives `NewFSStore`, `Create`, `Read`, `Update` and `Delete` of the
`resource` package, whose implementation is not available; the store is therefore modelled
from the specification (sections 3, 4.1, 4.3 and 7). -/

/-- Modelled from the spec: the Resource Key (group, resource type, namespace, name);
the store's key type is declared in the unavailable part of the `resource` package. -/
structure ResourceKey where
  Group : String
  Resource : String
  Namespace : String
  Name : String
deriving DecidableEq, Repr

/-- Modelled from the spec: the error taxonomy of section 7 that the facade uses. -/
inductive StoreError where
  | NotFound
  | AlreadyExists
  | Conflict
deriving DecidableEq, Repr

/-- Modelled from the spec: one committed generation of a record: its version, its
payload, and whether it is the tombstone left by a delete. -/
structure Generation where
  version : Int
  payload : List Nat
  deleted : Bool
deriving DecidableEq, Repr

/-- Modelled from the spec: the store keeps, per key, the committed generations, newest
first (the implementation of the FS store of `writer_test.go` is not available). -/
abbrev VersionedStore := ResourceKey → List Generation

/-- Modelled from the spec: the Version Allocator of section 4.3, the maximum of the
wall-clock-derived candidate and `previous + 1`. -/
def allocateVersion (previous candidate : Int) : Int := max candidate (previous + 1)

/-- Modelled from the spec: the current stored version of a key, 0 when absent. -/
def currentVersion (st : VersionedStore) (key : ResourceKey) : Int :=
  match st key with
  | [] => 0
  | g :: _ => g.version

/-- Modelled from the spec: whether a live (not deleted) record exists for the key. -/
def isLive (st : VersionedStore) (key : ResourceKey) : Bool :=
  match st key with
  | [] => false
  | g :: _ => !g.deleted

/-- Modelled from the spec: commit a new generation for a key. -/
def commit (st : VersionedStore) (key : ResourceKey) (g : Generation) : VersionedStore :=
  fun k => if k = key then g :: st key else st k

/-- Modelled from the spec: `Create(key, payload)` of section 4.1: fails with
`AlreadyExists` if a live record exists, else allocates the next version and persists. -/
def VersionedStore.Create (st : VersionedStore) (key : ResourceKey) (clock : Int)
    (payload : List Nat) : Except StoreError (VersionedStore × Generation) :=
  if isLive st key then .error StoreError.AlreadyExists
  else
    let g : Generation := ⟨allocateVersion (currentVersion st key) clock, payload, false⟩
    .ok (commit st key g, g)

/-- Modelled from the spec: `Read(key, optionalVersion)` of section 4.1. -/
def VersionedStore.Read (st : VersionedStore) (key : ResourceKey) (version : Option Int) :
    Except StoreError Generation :=
  match version with
  | none =>
    match st key with
    | [] => .error StoreError.NotFound
    | g :: _ => if g.deleted then .error StoreError.NotFound else .ok g
  | some v =>
    match (st key).find? (fun g => decide (g.version = v)) with
    | some g => if g.deleted then .error StoreError.NotFound else .ok g
    | none => .error StoreError.NotFound

/-- Modelled from the spec: `Update(key, expectedVersion, payload)` of section 4.1:
`NotFound` without a live record, `Conflict` on a version mismatch, else a strictly
greater version is allocated and persisted. -/
def VersionedStore.Update (st : VersionedStore) (key : ResourceKey) (expectedVersion : Int)
    (clock : Int) (payload : List Nat) : Except StoreError (VersionedStore × Generation) :=
  if !isLive st key then .error StoreError.NotFound
  else if currentVersion st key ≠ expectedVersion then .error StoreError.Conflict
  else
    let g : Generation := ⟨allocateVersion (currentVersion st key) clock, payload, false⟩
    .ok (commit st key g, g)

/-- Modelled from the spec: `Delete(key, expectedVersion)` of section 4.1: same
precondition as `Update`; the record is marked deleted under a new, greater version. -/
def VersionedStore.Delete (st : VersionedStore) (key : ResourceKey) (expectedVersion : Int)
    (clock : Int) : Except StoreError (VersionedStore × Generation) :=
  if !isLive st key then .error StoreError.NotFound
  else if currentVersion st key ≠ expectedVersion then .error StoreError.Conflict
  else
    let g : Generation := ⟨allocateVersion (currentVersion st key) clock, [], true⟩
    .ok (commit st key g, g)

/-- Modelled from the spec: the store before any mutation, with no generation for any key. -/
def emptyStore : VersionedStore := fun _ => []

/-! ## Sample collaborators

Concrete instances of the parameters, used to run the definitions. -/

/-- A one-dashboard store: the state is the version counter of dashboard `d1` (id 7),
0 when it does not exist; every save bumps the counter and stamps the counter as the
update time in seconds. -/
def counterStore : DashStore Int where
  GetDashboard := fun s q =>
    if q.UID = "d1" ∧ s > 0 then some { ID := 7, UID := "d1", Updated := timeUnix s } else none
  SaveDashboard := fun s _ =>
    (s + 1, some { ID := 7, UID := "d1", Updated := timeUnix (s + 1) }, none)
  DeleteDashboard := fun _ _ => (0, none)

/-- A sample access layer over `counterStore`: JSON payloads are accepted when they start
with an opening brace (byte 123), scopes are rendered as `dashboards:uid:<uid>` and
`folders:uid:<uid>`, the session returns no rows. -/
def sampleAccess : dashboardSqlAccess Int where
  sess := fun _ _ _ => (some [], none)
  namespacer := fun orgId => if orgId = 1 then "default" else "org-" ++ toString orgId
  dashStore := counterStore
  provisioning := fun name => "/etc/dashboards/" ++ name
  GetDashboard := fun s _ _ uid =>
    if uid = "d1" ∧ s > 0 then
      (some { Name := "d1", ResourceVersion := toString s,
              Spec := ⟨[("id", JsonValue.int 7)]⟩ }, s, none)
    else (none, 0, some "not found")
  metaAccessorErr := none
  calculateClusterWideUID := fun d => d.Namespace ++ "/" ++ d.Name
  filepathRel := fun _ target => .ok target
  unmarshalJSON := fun data =>
    if data.head? = some 123 then .ok ⟨[("title", JsonValue.str "from body")]⟩
    else .error "invalid character"
  dashboardScopeUID := fun uid => "dashboards:uid:" ++ uid
  folderScopeUID := fun uid => "folders:uid:" ++ uid

/-- A sample key. -/
def sampleKey : ResourceKey := ⟨"playlist.grafana.app", "rrrr", "default", "fdgsv37qslr0ga"⟩

/-- A sample cursor: dashboard `a` (10 payload bytes, in folder `f`), dashboard `b`
(5 payload bytes), dashboard `c` (3 payload bytes). -/
def sampleCursor : List SqlRow :=
  [ { org_id := 1, id := 11, uid := "a", folder_uid := some "f",
      data := [123, 34, 120, 34, 58, 49, 50, 51, 52, 125] },
    { org_id := 1, id := 12, uid := "b", data := [123, 32, 32, 32, 125] },
    { org_id := 1, id := 13, uid := "c", data := [123, 32, 125] } ]

/-- A sample cursor whose first row carries a payload that is not JSON. -/
def brokenCursor : List SqlRow :=
  [ { org_id := 1, id := 21, uid := "bad", data := [110, 111, 112, 101] },
    { org_id := 1, id := 22, uid := "good", data := [123, 125] } ]

/-- An access predicate that denies exactly the dashboard with the given uid. -/
def denyDashboard (uid : String) (scopes : List String) : Bool :=
  !scopes.contains ("dashboards:uid:" ++ uid)

/-- The access predicate `doQuery` installs: everything is readable. -/
def allowAll (_ : List String) : Bool := true

/-! ## Reading a cursor: auxiliary notions -/

section Reading
variable {σ : Type}

/-- A fresh wrapper around an open cursor holding `rs`, with access predicate `canRead`
(what `doQuery` builds, for an arbitrary predicate). -/
def freshWrapper (a : dashboardSqlAccess σ) (rs : List SqlRow) (canRead : List String → Bool) :
    rowsWrapper σ :=
  { a := a, rows := some rs, canReadDashboard := canRead }

/-- Whether the loop of `Next` passes over a cursor row without returning: the row
decodes to a non-nil `dashboardRow` whose scopes the predicate rejects. -/
def skips (a : dashboardSqlAccess σ) (canRead : List String → Bool) (raw : SqlRow) : Bool :=
  match a.scanRow raw with
  | (some d, _) => !canRead (rowScopes a d)
  | (none, _) => false

/-- The payload size a cursor row adds to the running total when `Next` reaches it:
`none` for a row that is skipped or that decodes to a nil `dashboardRow`. -/
def countedBytes (a : dashboardSqlAccess σ) (canRead : List String → Bool) (raw : SqlRow) :
    Option Int :=
  match a.scanRow raw with
  | (some d, _) => if canRead (rowScopes a d) then some d.Bytes else none
  | (none, _) => none

/-- The running total after adding payload sizes one by one, as `r.total += int64(n)` does. -/
def addBytes (total : Int) (bs : List Int) : Int :=
  bs.foldl (fun t b => wrapInt64 (t + b)) total

/-- A decoded row with the byte offset of its token set, as `Next` hands it out. -/
def withOffset (d : dashboardRow) (offset : Int) : dashboardRow :=
  { d with token := { d.token with bytes := offset } }

end Reading

/-! ## Sample rows -/

/-- The decoding of the second row of `sampleCursor` (dashboard `b`), with offset 0. -/
def sampleRowB : dashboardRow :=
  { ResourceVersion := 0,
    Dash := { Name := "b", Namespace := "default", UID := "default/b", ResourceVersion := "0",
              CreationTimestamp := some ⟨0⟩,
              Annotations := { updatedTimestamp := some ⟨0⟩, slug := some "" },
              Spec := ⟨[("id", JsonValue.int 12), ("title", JsonValue.str "from body")]⟩ },
    Title := "from body", FolderUID := "", Bytes := 5,
    token := { orgId := 1, id := 12, bytes := 0 } }

/-- The decoding of the second row of `brokenCursor` (dashboard `good`), with offset 0. -/
def sampleRowGood : dashboardRow :=
  { ResourceVersion := 0,
    Dash := { Name := "good", Namespace := "default", UID := "default/good",
              ResourceVersion := "0", CreationTimestamp := some ⟨0⟩,
              Annotations := { updatedTimestamp := some ⟨0⟩, slug := some "" },
              Spec := ⟨[("id", JsonValue.int 22), ("title", JsonValue.str "from body")]⟩ },
    Title := "from body", FolderUID := "", Bytes := 2,
    token := { orgId := 1, id := 22, bytes := 0 } }

/-- Two successive states of one `dashboard` row around a clock that stepped back one
second: the version counter goes from 4 to 5 while `updated` goes back. -/
def rowBeforeClockStep : SqlRow :=
  { org_id := 1, id := 7, uid := "d1", updated := ⟨1700000000000000000⟩, version := 4 }

/-- The later state of the row of `rowBeforeClockStep`. -/
def rowAfterClockStep : SqlRow :=
  { org_id := 1, id := 7, uid := "d1", updated := ⟨1699999999000000000⟩, version := 5 }

/-- A later state of the row of `rowBeforeClockStep` whose counter gained more than the
clock lost. -/
def rowAfterSmallStep : SqlRow :=
  { org_id := 1, id := 7, uid := "d1", updated := ⟨1699999999999999999⟩, version := 6 }

/-- The dashboard `sampleAccess` reads back once the counter of `counterStore` is `v`. -/
def sampleDashAt (v : Int) : Dashboard :=
  { Name := "d1", ResourceVersion := toString v, Spec := ⟨[("id", JsonValue.int 7)]⟩ }

/-- A store holding one live record for `sampleKey`, at version 100. -/
def sampleStore : VersionedStore := commit emptyStore sampleKey ⟨100, [1], false⟩

/-- One condition `getRows` appends to the `WHERE` clause, with the number of the
placeholder it refers to. -/
inductive Cond where
  | orgEq (n : Nat)
  | uidEq (n : Nat)
  | idGe (n : Nat)
deriving DecidableEq, Repr

/-- The SQL text of a condition, as the `fmt.Sprintf` calls of `getRows` write it. -/
def Cond.render : Cond → String
  | .orgEq n => " AND dashboard.org_id=$" ++ toString n
  | .uidEq n => " AND dashboard.uid=$" ++ toString n
  | .idGe n => " AND dashboard.id>=$" ++ toString n

/-- The conditions `getRows` appends for a label-free query, in order (lines 104-117). -/
def queryConds (query : DashboardQuery) : List Cond :=
  Cond.orgEq 1 ::
    (if query.UID ≠ "" then [Cond.uidEq 2]
     else if query.MinID > 0 then [Cond.idGe 2]
     else [])

/-- The SQL reading of a condition on a row of the `dashboard` table, placeholder `$n`
standing for the `n`-th bound argument. -/
def Cond.holds (args : List SqlArg) (row : SqlRow) : Cond → Bool
  | .orgEq n => args[n - 1]? == some (SqlArg.int row.org_id)
  | .uidEq n => args[n - 1]? == some (SqlArg.str row.uid)
  | .idGe n =>
    match args[n - 1]? with
    | some (SqlArg.int v) => decide (v ≤ row.id)
    | _ => false

/-- Whether the query `getRows` builds selects a dashboard row: every appended condition
holds of it under the bound arguments. -/
def selects (query : DashboardQuery) (row : SqlRow) : Bool :=
  (queryConds query).all (Cond.holds (buildQuery query).2.1 row)

/-! ## The wrapper after several calls -/

section After
variable {σ : Type}

/-- The wrapper left behind by `n` successive calls of `Next` (a faulting call leaves it
as it is). -/
def rowsWrapper.after : Nat → rowsWrapper σ → rowsWrapper σ
  | 0, r => r
  | n + 1, r =>
    match r.Next with
    | .fault _ => r
    | .ret (_, r1) => rowsWrapper.after n r1

/-- The payload sizes of the non-nil rows among some answers of `Next`, in order. -/
def returnedBytes (ys : List Yield) : List Int :=
  ys.filterMap (fun y => y.row.map (fun d => d.Bytes))

/-- The non-nil rows among some answers of `Next`, in order. -/
def returnedRows (ys : List Yield) : List dashboardRow :=
  ys.filterMap (fun y => y.row)

/-- A returned row is the decoding of a cursor row, up to the byte offset of its token. -/
def decodes (a : dashboardSqlAccess σ) (raw : SqlRow) (d : dashboardRow) : Prop :=
  ∃ d0 e, a.scanRow raw = (some d0, e) ∧ d = withOffset d0 d.token.bytes

end After

/-! ## Authorization client configuration (`pkg/services/authz/config.go`) -/

namespace authz

/-- The `Mode` string type. -/
abbrev Mode := String

/-- The `ModeGRPC` constant. -/
def ModeGRPC : Mode := "grpc"

/-- The `ModeInProc` constant. -/
def ModeInProc : Mode := "inproc"

/-- The `Mode.IsValid` method. -/
def Mode.IsValid (s : Mode) : Bool := s == ModeGRPC || s == ModeInProc

/-- A configuration section as `SectionWithEnvOverrides` returns it, seen through
`Key(k).MustString(default)` and `Key(k).MustBool(default)`; the settings package is a
parameter. -/
structure ConfigSection where
  MustString : String → String → String
  MustBool : String → Bool → Bool

/-- The `setting.Cfg` value, restricted to what `ReadCfg` reads. -/
structure SettingCfg where
  StackID : String
  Env : String
  SectionWithEnvOverrides : String → ConfigSection

/-- The `Cfg` struct. -/
structure Cfg where
  remoteAddress : String
  listen : Bool
  mode : Mode
  token : String
  tokenExchangeURL : String
  tokenNamespace : String
  allowInsecure : Bool
deriving DecidableEq, Repr

/-- The `ReadCfg` function; `quote` stands for the `%q` verb of `fmt` and `Dev` for the
`setting.Dev` constant. -/
def ReadCfg (quote : String → String) (Dev : String) (cfg : SettingCfg) : Except Error Cfg :=
  let authorizationSection := cfg.SectionWithEnvOverrides "authorization"
  let grpcClientAuthSection := cfg.SectionWithEnvOverrides "grpc_client_authentication"
  let mode : Mode := authorizationSection.MustString "mode" ModeInProc
  if !Mode.IsValid mode then .error ("authorization: invalid mode " ++ quote mode)
  else
    let token := grpcClientAuthSection.MustString "token" ""
    let tokenExchangeURL := grpcClientAuthSection.MustString "token_exchange_url" ""
    let tokenNamespace := grpcClientAuthSection.MustString "token_namespace" ("stack-" ++ cfg.StackID)
    if cfg.StackID ≠ "" ∧ token = "" ∧ tokenExchangeURL = "" then
      .error "authorization: missing token or tokenExchangeUrl"
    else
      .ok { remoteAddress := authorizationSection.MustString "remote_address" "",
            listen := authorizationSection.MustBool "listen" false,
            mode := mode,
            token := token,
            tokenExchangeURL := tokenExchangeURL,
            tokenNamespace := tokenNamespace,
            allowInsecure := decide (cfg.Env = Dev) }

/-- A section holding the given key/value pairs; an unset or empty key yields the default,
and a boolean key is true exactly for the value `true`. -/
def sectionOf (kvs : List (String × String)) : ConfigSection where
  MustString := fun key dflt =>
    match kvs.lookup key with
    | some v => if v = "" then dflt else v
    | none => dflt
  MustBool := fun key dflt =>
    match kvs.lookup key with
    | some v => v == "true"
    | none => dflt

/-- A cloud configuration (stack 34) in `grpc` mode that sets the client token but no
token exchange URL. -/
def cloudCfgTokenOnly : SettingCfg where
  StackID := "34"
  Env := "production"
  SectionWithEnvOverrides := fun name =>
    if name = "authorization" then sectionOf [("mode", "grpc"), ("remote_address", "authz:10000")]
    else if name = "grpc_client_authentication" then sectionOf [("token", "secret")]
    else sectionOf []

/-- A cloud configuration (stack 34) that sets neither the token nor the exchange URL. -/
def cloudCfgNoToken : SettingCfg where
  StackID := "34"
  Env := "production"
  SectionWithEnvOverrides := fun name =>
    if name = "authorization" then sectionOf [("mode", "grpc")] else sectionOf []

/-- A rendering of the `%q` verb for strings without special characters. -/
def plainQuote (s : String) : String := "\"" ++ s ++ "\""

end authz

/-! ## More sample collaborators and rows -/

/-- A sample access layer whose SQL session fails the way `database/sql` does: an error
and no cursor. -/
def failingAccess : dashboardSqlAccess Int :=
  { sampleAccess with sess := fun _ _ _ => (none, some "connection refused") }

/-- A row created by user 1 and last updated by user 2. -/
def ownedRow : SqlRow :=
  { org_id := 1, id := 31, uid := "o", created_by := 1, updated_by := 2 }

/-- A sample rendering of `filepath.Rel` on clean paths: `.` for equal paths and the
remainder for a target below the base; on any other pair it reports the error `filepath.Rel`
gives when no relative path exists. -/
def relUnder (base target : String) : Except Error String :=
  if base = target then .ok "."
  else if (base ++ "/").data.isPrefixOf target.data then
    .ok (String.mk (target.data.drop (base.length + 1)))
  else .error ("Rel: can't make " ++ target ++ " relative to " ++ base)

/-- A sample access layer with a file provisioner: the provisioner `name` resolves to
`/etc/dashboards/<name>`, an unknown (empty) name to the empty path. -/
def provisioningAccess : dashboardSqlAccess Int :=
  { sampleAccess with
    provisioning := fun name => if name = "" then "" else "/etc/dashboards/" ++ name
    filepathRel := relUnder }

/-- A provisioned row that also names a plugin. -/
def provisionedRow : SqlRow :=
  { org_id := 1, id := 41, uid := "p", plugin_id := "my-plugin",
    origin_name := some "files", origin_path := some "/etc/dashboards/files/team/p.json",
    origin_key := some "abc123", origin_ts := some 1700000000 }

/-- The decoding of `provisionedRow` by `provisioningAccess`. -/
def provisionedDecoded : dashboardRow :=
  { ResourceVersion := 0,
    Dash := { Name := "p", Namespace := "default", UID := "default/p", ResourceVersion := "0",
              CreationTimestamp := some ⟨0⟩,
              Annotations := { updatedTimestamp := some ⟨0⟩, slug := some "",
                               originInfo := some { Name := "files", Path := "team/p.json",
                                                    Hash := "abc123",
                                                    Timestamp := some ⟨1700000000000000000⟩ } } },
    token := { orgId := 1, id := 41 } }

/-- A row whose provisioning name is present but empty, and that names a plugin. -/
def emptyOriginRow : SqlRow :=
  { org_id := 1, id := 42, uid := "e", plugin_id := "my-plugin",
    origin_name := some "", origin_path := some "" }

/-! ## DingDing notifier constructor (`pkg/services/ngalert/notifier/channels/dingding.go`) -/

namespace channels

/-- The `simplejson.Json` settings document of a channel, as a string-keyed object. -/
structure Settings where
  Object : List (String × JsonValue) := []
deriving DecidableEq, Repr

/-- The chain `settings.Get(key).MustString(default)`: the string under `key`, else the
default. -/
def Settings.GetMustString (s : Settings) (key dflt : String) : String :=
  match s.Object.lookup key with
  | some (JsonValue.str v) => v
  | _ => dflt

/-- The `NotificationChannelConfig` struct, restricted to the fields the constructor
reads (`Type_` is the Go field `Type`); `Settings` is a pointer and may be nil. -/
structure NotificationChannelConfig where
  UID : String := ""
  Name : String := ""
  Type_ : String := ""
  DisableResolveMessage : Bool := false
  Settings : Option Settings := none
deriving DecidableEq, Repr

/-- The `receiverInitError` error value. -/
structure receiverInitError where
  Cfg : NotificationChannelConfig
  Reason : String
deriving DecidableEq, Repr

/-- The `models.AlertNotification` handed to `NewBase` (`Type_` is the Go field `Type`). -/
structure AlertNotification where
  Uid : String
  Name : String
  Type_ : String
  DisableResolveMessage : Bool
  Settings : Settings
deriving DecidableEq, Repr

/-- The `defaultDingdingMsgType` constant. -/
def defaultDingdingMsgType : String := "link"

/-- The `DingDingNotifier` struct; the template and the webhook sender are kept as given
(the logger is left out). -/
structure DingDingNotifier (τ ν : Type) where
  Base : AlertNotification
  MsgType : String
  URL : String
  Message : String
  tmpl : τ
  ns : ν

/-- The `NewDingDingNotifier` constructor; `validate` stands for
`ValidateContactPointReceiver`, which lives in another file of the package, and an error
value is its message, so that `err.Error()` on a nil error is the fault. -/
def NewDingDingNotifier {τ ν : Type} (validate : String → Settings → Bool × Option Error)
    (model : NotificationChannelConfig) (ns : ν) (t : τ) :
    Outcome (Option (DingDingNotifier τ ν) × Option receiverInitError) :=
  match model.Settings with
  | none => .ret (none, some { Cfg := model, Reason := "no settings supplied" })
  | some settings =>
    match validate model.Type_ settings with
    | (_, some err) => .ret (none, some { Cfg := model, Reason := err })
    | (false, none) => .fault "nil pointer dereference"
    | (true, none) =>
      .ret (some { Base := { Uid := model.UID, Name := model.Name, Type_ := model.Type_,
                             DisableResolveMessage := model.DisableResolveMessage,
                             Settings := settings },
                   MsgType := settings.GetMustString "msgType" defaultDingdingMsgType,
                   URL := settings.GetMustString "url" "",
                   Message := settings.GetMustString "message"
                     "\x7b\x7b template \"default.message\" .\x7d\x7d",
                   tmpl := t, ns := ns }, none)

/-- A sample validator that reports a receiver without a `url` setting as invalid, with no
error value. -/
def requireUrl (_ : String) (settings : Settings) : Bool × Option Error :=
  (settings.GetMustString "url" "" != "", none)

/-- A sample validator that reports a receiver without a `url` setting as invalid, with an
error value. -/
def requireUrlWithError (_ : String) (settings : Settings) : Bool × Option Error :=
  if settings.GetMustString "url" "" != "" then (true, none)
  else (false, some "could not find url property in settings")

/-- A channel config with settings that lack the `url` key. -/
def configWithoutUrl : NotificationChannelConfig :=
  { UID := "dd1", Name := "ops", Type_ := "dingding",
    Settings := some ⟨[("msgType", JsonValue.str "actionCard")]⟩ }

end channels

/-! ## Arithmetic of `wrapInt64` -/

theorem wrapInt64_of_inInt64 (x : Int) (h : inInt64 x) : wrapInt64 x = x := by
  unfold inInt64 at h
  unfold wrapInt64
  norm_num at h ⊢
  omega

theorem inInt64_wrapInt64 (x : Int) : inInt64 (wrapInt64 x) := by
  unfold inInt64 wrapInt64
  norm_num
  omega

theorem wrapInt64_add_wrapInt64 (x y : Int) : wrapInt64 (wrapInt64 x + y) = wrapInt64 (x + y) := by
  unfold wrapInt64
  norm_num
  omega

theorem addBytes_eq_wrap_sum (t : Int) (bs : List Int) (ht : inInt64 t) :
    addBytes t bs = wrapInt64 (t + bs.sum) := by
  induction bs generalizing t with
  | nil => simp [addBytes, wrapInt64_of_inInt64 t ht]
  | cons b bs ih =>
    have h1 := ih (wrapInt64 (t + b)) (inInt64_wrapInt64 _)
    simp only [addBytes, List.foldl_cons, List.sum_cons] at h1 ⊢
    rw [h1, wrapInt64_add_wrapInt64, add_assoc]

/-! ## One call of `Next` -/

section NextLemmas
variable {σ : Type}

theorem nextLoop_cons_skip (a : dashboardSqlAccess σ) (can : List String → Bool)
    (raw : SqlRow) (rest : List SqlRow) (idx : Nat) (total : Int)
    (h : skips a can raw = true) :
    nextLoop a can (raw :: rest) idx total = nextLoop a can rest (idx + 1) total := by
  unfold skips at h
  rw [nextLoop]
  split
  · next d err hs =>
    rw [hs] at h
    simp only at h
    simp [h]
  · next err hs =>
    rw [hs] at h
    simp at h

theorem nextLoop_cons_some (a : dashboardSqlAccess σ) (can : List String → Bool)
    (raw : SqlRow) (rest : List SqlRow) (idx : Nat) (total : Int)
    (d : dashboardRow) (err : Option Error)
    (hs : a.scanRow raw = (some d, err)) (h : can (rowScopes a d) = true) :
    nextLoop a can (raw :: rest) idx total =
      ⟨some (withOffset d total), err, rest, idx + 1, wrapInt64 (total + d.Bytes)⟩ := by
  rw [nextLoop]
  simp [hs, h, withOffset]

theorem nextLoop_cons_none (a : dashboardSqlAccess σ) (can : List String → Bool)
    (raw : SqlRow) (rest : List SqlRow) (idx : Nat) (total : Int) (err : Option Error)
    (hs : a.scanRow raw = (none, err)) :
    nextLoop a can (raw :: rest) idx total = ⟨none, err, rest, idx + 1, total⟩ := by
  rw [nextLoop]
  simp [hs]

theorem skips_false_some (a : dashboardSqlAccess σ) (can : List String → Bool)
    (raw : SqlRow) (d : dashboardRow) (err : Option Error)
    (hs : a.scanRow raw = (some d, err)) (h : skips a can raw = false) :
    can (rowScopes a d) = true := by
  unfold skips at h
  rw [hs] at h
  simpa using h

/-- Every call of the loop of `Next` passes over a run `pre` of skipped rows and then
either finds the cursor exhausted, or stops at the first row `raw` that is not skipped. -/
theorem nextLoop_spec (a : dashboardSqlAccess σ) (can : List String → Bool)
    (rs : List SqlRow) (idx : Nat) (total : Int) :
    ∃ pre, (∀ x ∈ pre, skips a can x = true) ∧
      ((rs = pre ∧ nextLoop a can rs idx total = ⟨none, none, [], idx + pre.length, total⟩) ∨
       (∃ raw post, rs = pre ++ raw :: post ∧ skips a can raw = false ∧
          ((∃ d0 err, a.scanRow raw = (some d0, err) ∧
              nextLoop a can rs idx total =
                ⟨some (withOffset d0 total), err, post, idx + pre.length + 1,
                  wrapInt64 (total + d0.Bytes)⟩) ∨
           (∃ err, a.scanRow raw = (none, err) ∧
              nextLoop a can rs idx total = ⟨none, err, post, idx + pre.length + 1, total⟩)))) := by
  induction rs generalizing idx with
  | nil =>
    exact ⟨[], by simp, Or.inl ⟨rfl, by simp [nextLoop]⟩⟩
  | cons raw rest ih =>
    cases hsk : skips a can raw with
    | true =>
      obtain ⟨pre, hpre, hcase⟩ := ih (idx + 1)
      refine ⟨raw :: pre, ?_, ?_⟩
      · intro x hx
        rcases List.mem_cons.mp hx with rfl | hx
        · exact hsk
        · exact hpre x hx
      · rw [nextLoop_cons_skip a can raw rest idx total hsk]
        rcases hcase with ⟨hrs, hnl⟩ | ⟨r0, post, hrs, hr0, hcase⟩
        · left
          refine ⟨by rw [hrs], ?_⟩
          rw [hnl, List.length_cons]
          congr 1
          omega
        · right
          refine ⟨r0, post, by rw [hrs]; rfl, hr0, ?_⟩
          rcases hcase with ⟨d0, err, hs, hnl⟩ | ⟨err, hs, hnl⟩
          · left
            refine ⟨d0, err, hs, ?_⟩
            rw [hnl, List.length_cons]
            congr 1
            omega
          · right
            refine ⟨err, hs, ?_⟩
            rw [hnl, List.length_cons]
            congr 1
            omega
    | false =>
      refine ⟨[], by simp, Or.inr ⟨raw, rest, rfl, hsk, ?_⟩⟩
      rcases hscan : a.scanRow raw with ⟨_ | d0, err⟩
      · right
        exact ⟨err, rfl, by simpa using nextLoop_cons_none a can raw rest idx total err hscan⟩
      · left
        refine ⟨d0, err, rfl, ?_⟩
        simpa using nextLoop_cons_some a can raw rest idx total d0 err hscan
          (skips_false_some a can raw d0 err hscan hsk)

theorem countedBytes_of_skips (a : dashboardSqlAccess σ) (can : List String → Bool)
    (pre : List SqlRow) (h : ∀ x ∈ pre, skips a can x = true) :
    pre.filterMap (countedBytes a can) = [] := by
  rw [List.filterMap_eq_nil_iff]
  intro x hx
  have hsk := h x hx
  unfold skips at hsk
  unfold countedBytes
  rcases hscan : a.scanRow x with ⟨_ | d0, err⟩
  · rfl
  · rw [hscan] at hsk
    simp only [Bool.not_eq_true'] at hsk
    simp [hsk]

theorem countedBytes_of_some (a : dashboardSqlAccess σ) (can : List String → Bool)
    (raw : SqlRow) (d : dashboardRow) (err : Option Error)
    (hs : a.scanRow raw = (some d, err)) (h : can (rowScopes a d) = true) :
    countedBytes a can raw = some d.Bytes := by
  unfold countedBytes
  rw [hs]
  simp [h]

theorem countedBytes_of_none (a : dashboardSqlAccess σ) (can : List String → Bool)
    (raw : SqlRow) (err : Option Error) (hs : a.scanRow raw = (none, err)) :
    countedBytes a can raw = none := by
  unfold countedBytes
  rw [hs]

end NextLemmas

/-! ## Successive calls of `Next` -/

section PullLemmas
variable {σ : Type}

theorem pull_succ (r : rowsWrapper σ) (rs : List SqlRow) (n : Nat) (h : r.rows = some rs) :
    r.pull (n + 1) =
      ⟨(nextLoop r.a r.canReadDashboard rs r.idx r.total).idx,
        (nextLoop r.a r.canReadDashboard rs r.idx r.total).row,
        (nextLoop r.a r.canReadDashboard rs r.idx r.total).err⟩ ::
      rowsWrapper.pull n
        { r with rows := some (nextLoop r.a r.canReadDashboard rs r.idx r.total).rest,
                 idx := (nextLoop r.a r.canReadDashboard rs r.idx r.total).idx,
                 total := (nextLoop r.a r.canReadDashboard rs r.idx r.total).total } := by
  simp [rowsWrapper.pull, rowsWrapper.Next, h]

/-- Every non-nil row handed out during successive calls of `Next` is the decoding of a
cursor row that the predicate admits, found at the position recorded in `idx`, and the
byte offset of its token is the running total over the rows counted before it. -/
theorem pull_rows (n : Nat) (r : rowsWrapper σ) (rs : List SqlRow) (h : r.rows = some rs)
    (y : Yield) (hy : y ∈ r.pull n) (d : dashboardRow) (hd : y.row = some d) :
    ∃ pre raw post d0, rs = pre ++ raw :: post ∧ y.idx = r.idx + pre.length + 1 ∧
      r.a.scanRow raw = (some d0, y.err) ∧ r.canReadDashboard (rowScopes r.a d0) = true ∧
      d = withOffset d0
        (addBytes r.total (pre.filterMap (countedBytes r.a r.canReadDashboard))) := by
  induction n generalizing r rs with
  | zero => simp [rowsWrapper.pull] at hy
  | succ n ih =>
    rw [pull_succ r rs n h] at hy
    obtain ⟨pre, hpre, hcase⟩ := nextLoop_spec r.a r.canReadDashboard rs r.idx r.total
    rcases List.mem_cons.mp hy with hy0 | hy1
    · -- the row returned by this very call
      subst hy0
      simp only at hd
      rcases hcase with ⟨_, hnl⟩ | ⟨raw, post, hrs, hraw, hcase⟩
      · rw [hnl] at hd
        simp at hd
      · rcases hcase with ⟨d0, err, hs, hnl⟩ | ⟨err, hs, hnl⟩
        · rw [hnl] at hd ⊢
          simp only [Option.some.injEq] at hd
          refine ⟨pre, raw, post, d0, hrs, rfl, hs, ?_, ?_⟩
          · exact skips_false_some r.a r.canReadDashboard raw d0 err hs hraw
          · rw [countedBytes_of_skips r.a r.canReadDashboard pre hpre]
            simpa [addBytes] using hd.symm
        · rw [hnl] at hd
          simp at hd
    · -- a row returned by a later call
      rcases hcase with ⟨_, hnl⟩ | ⟨raw, post, hrs, hraw, hcase⟩
      · rw [hnl] at hy1
        obtain ⟨pre1, raw1, post1, _, hnil, _⟩ := ih _ [] rfl hy1
        simp at hnil
      · rcases hcase with ⟨d0, err, hs, hnl⟩ | ⟨err, hs, hnl⟩
        · rw [hnl] at hy1
          obtain ⟨pre1, raw1, post1, d1, hpost, hidx, hs1, hcan1, hd1⟩ := ih _ post rfl hy1
          simp only at hpost hidx hs1 hcan1 hd1
          refine ⟨pre ++ raw :: pre1, raw1, post1, d1, ?_, ?_, hs1, hcan1, ?_⟩
          · rw [hrs, hpost]; simp
          · rw [hidx]; simp; omega
          · rw [hd1, List.filterMap_append, countedBytes_of_skips r.a r.canReadDashboard pre hpre,
              List.filterMap_cons,
              countedBytes_of_some r.a r.canReadDashboard raw d0 err hs
                (skips_false_some r.a r.canReadDashboard raw d0 err hs hraw)]
            simp [addBytes]
        · rw [hnl] at hy1
          obtain ⟨pre1, raw1, post1, d1, hpost, hidx, hs1, hcan1, hd1⟩ := ih _ post rfl hy1
          simp only at hpost hidx hs1 hcan1 hd1
          refine ⟨pre ++ raw :: pre1, raw1, post1, d1, ?_, ?_, hs1, hcan1, ?_⟩
          · rw [hrs, hpost]; simp
          · rw [hidx]; simp; omega
          · rw [hd1, List.filterMap_append, countedBytes_of_skips r.a r.canReadDashboard pre hpre,
              List.filterMap_cons, countedBytes_of_none r.a r.canReadDashboard raw err hs]
            simp

end PullLemmas

/-! ## Claims about `getRows` and `Next` -/

section Claims
variable {σ : Type}

/-- C1: for every query whose label list is non-empty, whatever its other fields, the
state and the context, `getRows` returns the error "labels not yet supported" with a nil
row producer and page size 0, and makes no call on the SQL session. -/
theorem getRows_labels_unsupported (a : dashboardSqlAccess σ) (s : σ) (ctx : Context)
    (query : DashboardQuery) (h : query.Labels ≠ []) :
    a.getRows s ctx query = ([], Outcome.ret ⟨none, 0, some "labels not yet supported"⟩) := by
  have hlen : query.Labels.length > 0 := List.length_pos.mpr h
  simp [dashboardSqlAccess.getRows, hlen]

theorem getRows_labels_unsupported_witness :
    ({ OrgID := 3, UID := "x", Limit := 50, MinID := 9, Labels := ["team"] } :
        DashboardQuery).Labels ≠ [] ∧
      sampleAccess.getRows 0 {} { OrgID := 3, UID := "x", Limit := 50, MinID := 9,
                                  Labels := ["team"] } =
        ([], Outcome.ret ⟨none, 0, some "labels not yet supported"⟩) :=
  ⟨by decide, getRows_labels_unsupported sampleAccess 0 {} _ (by decide)⟩

/-- After a run `pre` of rows that decode to rows the predicate rejects, the loop of `Next`
behaves as on the rest of the cursor, `pre.length` positions further. -/
theorem nextLoop_append_skipped (a : dashboardSqlAccess σ) (can : List String → Bool)
    (pre rest : List SqlRow) (idx : Nat) (total : Int)
    (hpre : ∀ x ∈ pre, skips a can x = true) :
    nextLoop a can (pre ++ rest) idx total = nextLoop a can rest (idx + pre.length) total := by
  induction pre generalizing idx with
  | nil => simp
  | cons x pre ih =>
    have hx : skips a can x = true := hpre x (List.mem_cons_self x pre)
    have hrest : ∀ y ∈ pre, skips a can y = true :=
      fun y hy => hpre y (List.mem_cons_of_mem x hy)
    rw [List.cons_append, nextLoop_cons_skip a can x (pre ++ rest) idx total hx,
      ih (idx + 1) hrest, List.length_cons]
    congr 1
    omega

/-- C2: `Next` returns the first row in scan order that passes the access predicate, and
only such a row. (1) Whenever a call returns a non-nil row, the predicate holds of the row's
dashboard scope followed by its folder scope (present exactly when the folder UID is
non-empty), the row is the decoding of a cursor row, and every cursor row before it in this
call decoded to a row whose scopes the predicate rejected. (2) Conversely, whenever the
unread cursor starts with rows that decode to rejected rows followed by a row that decodes
to an admitted row, the call returns exactly that row (with the running total as offset and
the error of its decoding), leaves the cursor right after it and adds its size to the total.
(3) When every unread row decodes to a rejected row the call returns `(nil, nil)` with the
cursor exhausted, and (4) when the first row that is not rejected decodes to a nil row, the
call returns nil with that row's error. -/
theorem Next_returns_first_admitted_row (r : rowsWrapper σ) :
    (∀ (d : dashboardRow) (err : Option Error) (r1 : rowsWrapper σ),
      r.Next = Outcome.ret ((some d, err), r1) →
        r.canReadDashboard
            (r.a.dashboardScopeUID d.Dash.Name ::
              (if d.FolderUID = "" then [] else [r.a.folderScopeUID d.FolderUID])) = true ∧
          ∃ pre raw post d0, r.rows = some (pre ++ raw :: post) ∧ r1.rows = some post ∧
            r.a.scanRow raw = (some d0, err) ∧ d = withOffset d0 r.total ∧
            ∀ x ∈ pre, ∃ dx ex, r.a.scanRow x = (some dx, ex) ∧
              r.canReadDashboard
                (r.a.dashboardScopeUID dx.Dash.Name ::
                  (if dx.FolderUID = "" then [] else [r.a.folderScopeUID dx.FolderUID]))
                = false) ∧
      (∀ (pre : List SqlRow) (raw : SqlRow) (post : List SqlRow) (d0 : dashboardRow)
          (err : Option Error),
        r.rows = some (pre ++ raw :: post) →
        (∀ x ∈ pre, ∃ dx ex, r.a.scanRow x = (some dx, ex) ∧
          r.canReadDashboard
            (r.a.dashboardScopeUID dx.Dash.Name ::
              (if dx.FolderUID = "" then [] else [r.a.folderScopeUID dx.FolderUID])) = false) →
        r.a.scanRow raw = (some d0, err) →
        r.canReadDashboard
            (r.a.dashboardScopeUID d0.Dash.Name ::
              (if d0.FolderUID = "" then [] else [r.a.folderScopeUID d0.FolderUID])) = true →
          r.Next = Outcome.ret ((some (withOffset d0 r.total), err),
            { r with rows := some post, idx := r.idx + pre.length + 1,
                     total := wrapInt64 (r.total + d0.Bytes) })) ∧
      (∀ (rs : List SqlRow), r.rows = some rs →
        (∀ x ∈ rs, ∃ dx ex, r.a.scanRow x = (some dx, ex) ∧
          r.canReadDashboard
            (r.a.dashboardScopeUID dx.Dash.Name ::
              (if dx.FolderUID = "" then [] else [r.a.folderScopeUID dx.FolderUID])) = false) →
          r.Next = Outcome.ret ((none, none),
            { r with rows := some [], idx := r.idx + rs.length, total := r.total })) ∧
      (∀ (pre : List SqlRow) (raw : SqlRow) (post : List SqlRow) (err : Option Error),
        r.rows = some (pre ++ raw :: post) →
        (∀ x ∈ pre, ∃ dx ex, r.a.scanRow x = (some dx, ex) ∧
          r.canReadDashboard
            (r.a.dashboardScopeUID dx.Dash.Name ::
              (if dx.FolderUID = "" then [] else [r.a.folderScopeUID dx.FolderUID])) = false) →
        r.a.scanRow raw = (none, err) →
          r.Next = Outcome.ret ((none, err),
            { r with rows := some post, idx := r.idx + pre.length + 1, total := r.total })) := by
  have hscopes : ∀ x : dashboardRow,
      rowScopes r.a x =
        r.a.dashboardScopeUID x.Dash.Name ::
          (if x.FolderUID = "" then [] else [r.a.folderScopeUID x.FolderUID]) := by
    intro x
    unfold rowScopes
    by_cases hf : x.FolderUID = "" <;> simp [hf]
  have hskip : ∀ l : List SqlRow,
      (∀ x ∈ l, ∃ dx ex, r.a.scanRow x = (some dx, ex) ∧
        r.canReadDashboard
          (r.a.dashboardScopeUID dx.Dash.Name ::
            (if dx.FolderUID = "" then [] else [r.a.folderScopeUID dx.FolderUID])) = false) →
      ∀ x ∈ l, skips r.a r.canReadDashboard x = true := by
    intro l hl x hx
    obtain ⟨dx, ex, hs, hcan⟩ := hl x hx
    unfold skips
    rw [hs]
    simp only
    rw [hscopes, hcan]
    rfl
  refine ⟨?_, ?_, ?_, ?_⟩
  · intro d err r1 h
    unfold rowsWrapper.Next at h
    rcases hrows : r.rows with _ | rs
    · rw [hrows] at h
      simp at h
    · rw [hrows] at h
      simp only [Outcome.ret.injEq, Prod.mk.injEq] at h
      obtain ⟨⟨hrow, herr⟩, hr1⟩ := h
      obtain ⟨pre, hpre, hcase⟩ := nextLoop_spec r.a r.canReadDashboard rs r.idx r.total
      rcases hcase with ⟨_, hnl⟩ | ⟨raw, post, hrs, hraw, hcase⟩
      · rw [hnl] at hrow
        simp at hrow
      · rcases hcase with ⟨d0, e0, hs, hnl⟩ | ⟨e0, hs, hnl⟩
        · rw [hnl] at hrow herr hr1
          simp only [Option.some.injEq] at hrow herr
          subst herr
          have hcan := skips_false_some r.a r.canReadDashboard raw d0 e0 hs hraw
          refine ⟨?_, pre, raw, post, d0, by rw [hrs], by rw [← hr1], hs, hrow.symm, ?_⟩
          · rw [← hscopes, ← hrow]
            exact hcan
          · intro x hx
            have hsk := hpre x hx
            unfold skips at hsk
            rcases hscan : r.a.scanRow x with ⟨_ | dx, ex⟩
            · rw [hscan] at hsk
              simp at hsk
            · rw [hscan] at hsk
              refine ⟨dx, ex, rfl, ?_⟩
              rw [← hscopes]
              simpa using hsk
        · rw [hnl] at hrow
          simp at hrow
  · intro pre raw post d0 err hrows hpre hs hcan
    unfold rowsWrapper.Next
    rw [hrows]
    simp only
    rw [nextLoop_append_skipped r.a r.canReadDashboard pre (raw :: post) r.idx r.total
        (hskip pre hpre),
      nextLoop_cons_some r.a r.canReadDashboard raw post (r.idx + pre.length) r.total d0 err hs
        (by rw [hscopes]; exact hcan)]
  · intro rs hrows hall
    unfold rowsWrapper.Next
    rw [hrows]
    simp only
    have h0 := nextLoop_append_skipped r.a r.canReadDashboard rs [] r.idx r.total
      (hskip rs hall)
    rw [List.append_nil] at h0
    rw [h0]
    simp [nextLoop]
  · intro pre raw post err hrows hpre hs
    unfold rowsWrapper.Next
    rw [hrows]
    simp only
    rw [nextLoop_append_skipped r.a r.canReadDashboard pre (raw :: post) r.idx r.total
        (hskip pre hpre),
      nextLoop_cons_none r.a r.canReadDashboard raw post (r.idx + pre.length) r.total err hs]

theorem Next_returns_first_admitted_row_witness :
    (freshWrapper sampleAccess sampleCursor (denyDashboard "a")).Next =
        Outcome.ret ((some sampleRowB, none),
          { freshWrapper sampleAccess sampleCursor (denyDashboard "a") with
            rows := some (sampleCursor.drop 2), idx := 2, total := 5 }) ∧
      denyDashboard "a" ("dashboards:uid:b" :: []) = true ∧
      ∃ pre raw post d0, some sampleCursor = some (pre ++ raw :: post) ∧
        some (sampleCursor.drop 2) = some post ∧
        sampleAccess.scanRow raw = (some d0, none) ∧ sampleRowB = withOffset d0 0 ∧
        ∀ x ∈ pre, ∃ dx ex, sampleAccess.scanRow x = (some dx, ex) ∧
          denyDashboard "a"
            (sampleAccess.dashboardScopeUID dx.Dash.Name ::
              (if dx.FolderUID = "" then [] else [sampleAccess.folderScopeUID dx.FolderUID]))
            = false :=
  ⟨(Next_returns_first_admitted_row
        (freshWrapper sampleAccess sampleCursor (denyDashboard "a"))).2.1
      (sampleCursor.take 1)
      ({ org_id := 1, id := 12, uid := "b", data := [123, 32, 32, 32, 125] } : SqlRow)
      (sampleCursor.drop 2) sampleRowB none (by rfl)
      (fun x hx => by
        have hx1 : x = ({ org_id := 1, id := 11, uid := "a", folder_uid := some "f",
                          data := [123, 34, 120, 34, 58, 49, 50, 51, 52, 125] } : SqlRow) := by
          simpa [sampleCursor] using hx
        subst hx1
        exact ⟨((sampleAccess.scanRow
                  ({ org_id := 1, id := 11, uid := "a", folder_uid := some "f",
                     data := [123, 34, 120, 34, 58, 49, 50, 51, 52, 125] } : SqlRow)).1.getD
                  sampleRowB),
          none, by rfl, by rfl⟩)
      (by rfl) (by rfl),
    (Next_returns_first_admitted_row
        (freshWrapper sampleAccess sampleCursor (denyDashboard "a"))).1
      sampleRowB none
      { freshWrapper sampleAccess sampleCursor (denyDashboard "a") with
        rows := some (sampleCursor.drop 2), idx := 2, total := 5 }
      (by rfl)⟩

/-- C3, as stated, fails: with dashboard `a` (10 payload bytes) denied, the first call of
`Next` on `sampleCursor` yields dashboard `b`, read at cursor position 2, with byte offset 0,
while the payload sizes of the rows positioned before it sum to 10. -/
theorem token_offset_all_rows_counterexample :
    (freshWrapper sampleAccess sampleCursor (denyDashboard "a")).pull 1 =
        [⟨2, some sampleRowB, none⟩] ∧
      sampleRowB.token.bytes = 0 ∧
      ((sampleCursor.take (2 - 1)).map (fun raw => (raw.data.length : Int))).sum = 10 := by
  refine ⟨by rfl, by rfl, by decide⟩

/-- C3, amended: for every cursor content and access predicate, a row yielded by `Next` on
a fresh wrapper is the decoding of the cursor row at the position it was read at, and the
byte offset of its token is the (64-bit) sum of the payload sizes of the rows positioned
before it that `Next` returned, i.e. that decoded to a non-nil row admitted by the
predicate; skipped rows contribute nothing. -/
theorem token_offset_counts_admitted_rows (a : dashboardSqlAccess σ) (rs : List SqlRow)
    (can : List String → Bool) (n : Nat) (y : Yield) (d : dashboardRow)
    (hy : y ∈ (freshWrapper a rs can).pull n) (hd : y.row = some d) :
    ∃ raw d0, rs[y.idx - 1]? = some raw ∧ a.scanRow raw = (some d0, y.err) ∧
      d = withOffset d0 d.token.bytes ∧
      d.token.bytes =
        wrapInt64 (((rs.take (y.idx - 1)).filterMap (countedBytes a can)).sum) := by
  obtain ⟨pre, raw, post, d0, hrs, hidx, hs, _, hd0⟩ :=
    pull_rows n (freshWrapper a rs can) rs rfl y hy d hd
  simp only [freshWrapper] at hidx hs hd0
  have hpos : y.idx - 1 = pre.length := by omega
  have hoff : d.token.bytes = wrapInt64 ((pre.filterMap (countedBytes a can)).sum) := by
    rw [hd0, addBytes_eq_wrap_sum 0 _ (by unfold inInt64; norm_num)]
    simp [withOffset]
  refine ⟨raw, d0, ?_, hs, ?_, ?_⟩
  · rw [hpos, hrs, List.getElem?_append_right (le_refl _)]
    simp
  · rw [hoff, hd0, addBytes_eq_wrap_sum 0 _ (by unfold inInt64; norm_num)]
    simp [withOffset]
  · rw [hoff, hpos, hrs]
    simp

theorem token_offset_counts_admitted_rows_witness :
    ∃ raw d0, sampleCursor[2 - 1]? = some raw ∧ sampleAccess.scanRow raw = (some d0, none) ∧
      sampleRowB = withOffset d0 sampleRowB.token.bytes ∧
      sampleRowB.token.bytes =
        wrapInt64 (((sampleCursor.take (2 - 1)).filterMap
          (countedBytes sampleAccess (denyDashboard "a"))).sum) :=
  token_offset_counts_admitted_rows sampleAccess sampleCursor (denyDashboard "a") 1
    ⟨2, some sampleRowB, none⟩ sampleRowB (by decide) rfl

/-- C4, as stated, fails: on `sampleCursor`, dashboard `b` (cursor position 2) is yielded
both when everything is readable and when dashboard `a` is denied, with byte offset 10 in
the first run and 0 in the second. -/
theorem token_two_runs_counterexample :
    (⟨2, some (withOffset sampleRowB 10), none⟩ : Yield) ∈
        (freshWrapper sampleAccess sampleCursor allowAll).pull 2 ∧
      (⟨2, some sampleRowB, none⟩ : Yield) ∈
        (freshWrapper sampleAccess sampleCursor (denyDashboard "a")).pull 2 ∧
      (withOffset sampleRowB 10).token.bytes ≠ sampleRowB.token.bytes := by
  refine ⟨by decide, by decide, by decide⟩

/-- C4, amended: for the same cursor content and any two access predicates `p` and `q`, a
cursor row that `Next` yields under both is returned with the same error, the same decoded
fields and the same org id and row id in its token; the byte offsets agree whenever `p`
and `q` admit the same rows among those positioned before it. -/
theorem token_two_runs_agree (a : dashboardSqlAccess σ) (rs : List SqlRow)
    (p q : List String → Bool) (n m : Nat) (y1 y2 : Yield) (d1 d2 : dashboardRow)
    (h1 : y1 ∈ (freshWrapper a rs p).pull n) (h2 : y2 ∈ (freshWrapper a rs q).pull m)
    (hd1 : y1.row = some d1) (hd2 : y2.row = some d2) (hsame : y1.idx = y2.idx) :
    y1.err = y2.err ∧ withOffset d1 0 = withOffset d2 0 ∧
      d1.token.orgId = d2.token.orgId ∧ d1.token.id = d2.token.id ∧
      ((∀ raw ∈ rs.take (y1.idx - 1), countedBytes a p raw = countedBytes a q raw) →
        d1.token.bytes = d2.token.bytes) := by
  obtain ⟨pre1, raw1, post1, e1, hrs1, hidx1, hs1, _, he1⟩ :=
    pull_rows n (freshWrapper a rs p) rs rfl y1 h1 d1 hd1
  obtain ⟨pre2, raw2, post2, e2, hrs2, hidx2, hs2, _, he2⟩ :=
    pull_rows m (freshWrapper a rs q) rs rfl y2 h2 d2 hd2
  simp only [freshWrapper] at hidx1 hs1 he1 hidx2 hs2 he2
  have hlen : pre1.length = pre2.length := by omega
  have happ : pre1 ++ raw1 :: post1 = pre2 ++ raw2 :: post2 := by rw [← hrs1, ← hrs2]
  obtain ⟨hpre, htail⟩ := List.append_inj happ hlen
  have hraw : raw1 = raw2 := (List.cons.inj htail).1
  subst hpre
  subst hraw
  rw [hs1] at hs2
  simp only [Prod.mk.injEq, Option.some.injEq] at hs2
  obtain ⟨hd0, herr⟩ := hs2
  subst hd0
  have htake : rs.take (y1.idx - 1) = pre1 := by
    have : y1.idx - 1 = pre1.length := by omega
    rw [this, hrs1]
    simp
  refine ⟨herr, ?_, ?_, ?_, ?_⟩
  · rw [he1, he2]
    simp [withOffset]
  · rw [he1, he2]
    simp [withOffset]
  · rw [he1, he2]
    simp [withOffset]
  · intro hagree
    rw [htake] at hagree
    have hfm : pre1.filterMap (countedBytes a p) = pre1.filterMap (countedBytes a q) :=
      List.filterMap_congr hagree
    rw [he1, he2, hfm]

theorem token_two_runs_agree_witness :
    (none : Option Error) = none ∧ withOffset (withOffset sampleRowB 10) 0 = withOffset sampleRowB 0 ∧
      (withOffset sampleRowB 10).token.orgId = sampleRowB.token.orgId ∧
      (withOffset sampleRowB 10).token.id = sampleRowB.token.id ∧
      ((∀ raw ∈ sampleCursor.take (2 - 1),
          countedBytes sampleAccess allowAll raw =
            countedBytes sampleAccess (denyDashboard "a") raw) →
        (withOffset sampleRowB 10).token.bytes = sampleRowB.token.bytes) :=
  token_two_runs_agree sampleAccess sampleCursor allowAll (denyDashboard "a") 2 2
    ⟨2, some (withOffset sampleRowB 10), none⟩ ⟨2, some sampleRowB, none⟩
    (withOffset sampleRowB 10) sampleRowB (by decide) (by decide) rfl rfl rfl

/-- C10, evaluated at the failing input: on `brokenCursor` the first row's payload does not
decode (`scanRow` returns the row together with the error), yet with that dashboard denied
the first call of `Next` passes over it and returns the next row with a nil error, while
with everything readable the same call returns the error. -/
theorem decode_error_dropped_when_row_denied :
    (sampleAccess.scanRow { org_id := 1, id := 21, uid := "bad", data := [110, 111, 112, 101] }).2
        = some "invalid character" ∧
      (freshWrapper sampleAccess brokenCursor (denyDashboard "bad")).pull 1 =
        [⟨2, some sampleRowGood, none⟩] ∧
      ((freshWrapper sampleAccess brokenCursor allowAll).pull 1).map (fun y => (y.idx, y.err)) =
        [(1, some "invalid character")] := by
  refine ⟨by rfl, by rfl, by rfl⟩

end Claims

/-! ## Resource versions -/

section Versions
variable {σ : Type}

theorem scanRow_version (a : dashboardSqlAccess σ) (raw : SqlRow) (d : dashboardRow)
    (e : Option Error) (hs : a.scanRow raw = (some d, e)) (h : raw.scanErr = none) :
    d.ResourceVersion = wrapInt64 (raw.updated.UnixNano + raw.version) := by
  unfold dashboardSqlAccess.scanRow at hs
  simp only [h] at hs
  split at hs
  · simp at hs
  · split at hs
    · simp at hs
    · split at hs
      · split at hs
        · simp only [Prod.mk.injEq, Option.some.injEq] at hs
          rw [← hs.1]
        · simp only [Prod.mk.injEq, Option.some.injEq] at hs
          rw [← hs.1]
      · simp only [Prod.mk.injEq, Option.some.injEq] at hs
        rw [← hs.1]

/-- C6, as stated, fails: between `rowBeforeClockStep` and `rowAfterClockStep` the version
counter rises from 4 to 5 while the update time goes back one second, and the resource
version `scanRow` computes drops from 1700000000000000004 to 1699999999000000005. -/
theorem clock_backward_counterexample :
    rowBeforeClockStep.version < rowAfterClockStep.version ∧
      rowAfterClockStep.updated.nanos < rowBeforeClockStep.updated.nanos ∧
      (sampleAccess.scanRow rowBeforeClockStep).1.map (fun d => d.ResourceVersion) =
        some 1700000000000000004 ∧
      (sampleAccess.scanRow rowAfterClockStep).1.map (fun d => d.ResourceVersion) =
        some 1699999999000000005 ∧
      (sampleAccess.scanRow rowAfterClockStep).2 = none := by
  refine ⟨by decide, by decide, by rfl, by rfl, by rfl⟩

/-- C6, amended: `scanRow` computes the resource version as the update time in nanoseconds
plus the stored version counter (no maximum with the previous version is taken); for two
states of a row that both decode, with values in the 64-bit range, the later state's
resource version is strictly greater exactly when the counter gained more than the clock
lost. -/
theorem scanRow_version_order (a : dashboardSqlAccess σ) (r1 r2 : SqlRow)
    (d1 d2 : dashboardRow)
    (hs1 : (a.scanRow r1).1 = some d1) (hs2 : (a.scanRow r2).1 = some d2)
    (h1 : r1.scanErr = none) (h2 : r2.scanErr = none)
    (ht1 : inInt64 r1.updated.nanos) (ht2 : inInt64 r2.updated.nanos)
    (hv1 : inInt64 (r1.updated.nanos + r1.version))
    (hv2 : inInt64 (r2.updated.nanos + r2.version)) :
    d1.ResourceVersion = r1.updated.nanos + r1.version ∧
      d2.ResourceVersion = r2.updated.nanos + r2.version ∧
      (d1.ResourceVersion < d2.ResourceVersion ↔
        r1.updated.nanos - r2.updated.nanos < r2.version - r1.version) := by
  have e1 : d1.ResourceVersion = r1.updated.nanos + r1.version := by
    rcases hsc : a.scanRow r1 with ⟨o, e⟩
    rw [hsc] at hs1
    simp only at hs1
    subst hs1
    rw [scanRow_version a r1 d1 e hsc h1, Time.UnixNano, wrapInt64_of_inInt64 _ ht1,
      wrapInt64_of_inInt64 _ hv1]
  have e2 : d2.ResourceVersion = r2.updated.nanos + r2.version := by
    rcases hsc : a.scanRow r2 with ⟨o, e⟩
    rw [hsc] at hs2
    simp only at hs2
    subst hs2
    rw [scanRow_version a r2 d2 e hsc h2, Time.UnixNano, wrapInt64_of_inInt64 _ ht2,
      wrapInt64_of_inInt64 _ hv2]
  refine ⟨e1, e2, ?_⟩
  rw [e1, e2]
  constructor <;> intro h <;> omega

theorem scanRow_version_order_witness :
    ((sampleAccess.scanRow rowBeforeClockStep).1.getD sampleRowB).ResourceVersion =
        1700000000000000000 + 4 ∧
      ((sampleAccess.scanRow rowAfterSmallStep).1.getD sampleRowB).ResourceVersion =
        1699999999999999999 + 6 ∧
      (((sampleAccess.scanRow rowBeforeClockStep).1.getD sampleRowB).ResourceVersion <
          ((sampleAccess.scanRow rowAfterSmallStep).1.getD sampleRowB).ResourceVersion ↔
        (1700000000000000000 : Int) - 1699999999999999999 < 6 - 4) :=
  scanRow_version_order sampleAccess rowBeforeClockStep rowAfterSmallStep _ _
    (by rfl) (by rfl) (by rfl) (by rfl)
    (by decide) (by decide) (by decide) (by decide)

end Versions

/-! ## Mutations -/

section Mutations
variable {σ : Type}

/-- C7, as stated, fails: with version 5 stored for dashboard `d1`, `SaveDashboard` given a
dashboard that carries the stale resource version "1" sends a save command with
`Overwrite = true` to the store, the store state changes and version "6" is returned
without error; `DeleteDashboard`, which takes no expected version, deletes it likewise. -/
theorem stale_version_counterexample :
    (sampleAccess.GetDashboard 5 {} 1 "d1").1 = some (sampleDashAt 5) ∧
      (sampleAccess.SaveDashboard 5 {} 1 { Name := "d1", ResourceVersion := "1" }).result =
        Outcome.ret (some (sampleDashAt 6), false, none) ∧
      (sampleAccess.SaveDashboard 5 {} 1 { Name := "d1", ResourceVersion := "1" }).state = 6 ∧
      (sampleAccess.SaveDashboard 5 {} 1 { Name := "d1", ResourceVersion := "1" }).calls =
        [StoreCall.get ⟨1, "d1"⟩,
         StoreCall.save
           { OrgID := 1,
             Dashboard := ⟨[("id", JsonValue.int 7), ("uid", JsonValue.str "d1")]⟩,
             FolderUID := "", Overwrite := true, UserID := 1 }] ∧
      (sampleAccess.DeleteDashboard 5 {} 1 "d1").result =
        Outcome.ret (some (sampleDashAt 5), true, none) ∧
      (sampleAccess.DeleteDashboard 5 {} 1 "d1").state = 0 ∧
      (sampleAccess.DeleteDashboard 5 {} 1 "d1").calls = [StoreCall.delete ⟨1, 7⟩] := by
  refine ⟨by rfl, by rfl, by rfl, by rfl, by rfl, by rfl, by rfl⟩

/-- C7, amended: `SaveDashboard` and `DeleteDashboard` do not check an expected version
themselves. `SaveDashboard` behaves the same whatever resource version the dashboard it is
given carries and, once the user is found in the context and the meta accessor succeeds,
sends exactly one save command, with `Overwrite = true`, after its lookups;
`DeleteDashboard` takes no expected version and, once the read succeeds with a non-zero id
in the body, sends the delete command for that id. -/
theorem mutations_do_not_check_version (a : dashboardSqlAccess σ) (s : σ) (ctx : Context)
    (orgId : Int) (dash : Dashboard) (rv : String) :
    a.SaveDashboard s ctx orgId { dash with ResourceVersion := rv } =
        a.SaveDashboard s ctx orgId dash ∧
      (∀ userID, ctx.user = .ok userID → a.metaAccessorErr = none →
        ∃ cmd : SaveDashboardCommand, cmd.Overwrite = true ∧ cmd.OrgID = orgId ∧
          (a.SaveDashboard s ctx orgId dash).calls =
            (prepareSpec a s orgId dash).2.2 ++ [StoreCall.save cmd] ∧
          (a.SaveDashboard s ctx orgId dash).state = (a.dashStore.SaveDashboard s cmd).1) ∧
      (∀ uid d v, a.GetDashboard s ctx orgId uid = (some d, v, none) →
        d.Spec.GetNestedInt64 "id" ≠ 0 →
          (a.DeleteDashboard s ctx orgId uid).calls =
            [StoreCall.delete ⟨orgId, d.Spec.GetNestedInt64 "id"⟩] ∧
          (a.DeleteDashboard s ctx orgId uid).state =
            (a.dashStore.DeleteDashboard s ⟨orgId, d.Spec.GetNestedInt64 "id"⟩).1) := by
  refine ⟨rfl, ?_, ?_⟩
  · intro userID huser hmeta
    refine ⟨{ OrgID := orgId, Dashboard := (prepareSpec a s orgId dash).1,
              FolderUID := dash.Annotations.folder.getD "", Overwrite := true,
              UserID := userID }, rfl, rfl, ?_, ?_⟩
    · unfold dashboardSqlAccess.SaveDashboard
      simp only [huser, hmeta]
      split <;> rfl
    · unfold dashboardSqlAccess.SaveDashboard
      simp only [huser, hmeta]
      split <;> simp_all
  · intro uid d v hget hid
    unfold dashboardSqlAccess.DeleteDashboard
    simp only [hget, hid, if_false]
    split <;> simp_all

/-- C9 (on the store modelled from the spec): for every key, after a successful Delete a
Read of that key with the version unset fails with `NotFound` and returns no record. -/
theorem read_after_delete_not_found (st st1 : VersionedStore) (key : ResourceKey)
    (expectedVersion clock : Int) (g : Generation)
    (h : st.Delete key expectedVersion clock = .ok (st1, g)) :
    st1.Read key none = .error StoreError.NotFound := by
  simp only [VersionedStore.Delete] at h
  split at h
  · simp at h
  · split at h
    · simp at h
    · simp only [Except.ok.injEq, Prod.mk.injEq] at h
      obtain ⟨h1, _⟩ := h
      subst h1
      simp [VersionedStore.Read, commit]

theorem read_after_delete_not_found_witness :
    sampleStore.Delete sampleKey 100 7 =
        .ok (commit sampleStore sampleKey ⟨101, [], true⟩, ⟨101, [], true⟩) ∧
      (commit sampleStore sampleKey ⟨101, [], true⟩).Read sampleKey none =
        .error StoreError.NotFound :=
  ⟨by rfl, read_after_delete_not_found sampleStore _ sampleKey 100 7 ⟨101, [], true⟩ (by rfl)⟩

end Mutations

/-! ## The query `getRows` builds -/

section QueryText
variable {σ : Type}

theorem buildQuery_uid (query : DashboardQuery) (h : query.UID ≠ "") :
    buildQuery query =
      (selector ++
        " AND dashboard.org_id=$1 AND dashboard.uid=$2 ORDER BY dashboard.id asc LIMIT $3",
       [SqlArg.int query.OrgID, SqlArg.str query.UID,
        SqlArg.int (wrapInt64 ((if query.Limit < 1 then 15 else query.Limit) + 2))],
       if query.Limit < 1 then 15 else query.Limit) := by
  have e1 : toString (1 : Nat) = "1" := by decide
  have e2 : toString (2 : Nat) = "2" := by decide
  have e3 : toString (3 : Nat) = "3" := by decide
  simp only [buildQuery, h, ne_eq, not_false_eq_true, if_true, List.length_cons, List.length_nil,
    List.length_append, List.cons_append, List.nil_append, e1, e2, e3, String.append_assoc]
  rfl

theorem buildQuery_minID (query : DashboardQuery) (h : query.UID = "") (hm : query.MinID > 0) :
    buildQuery query =
      (selector ++
        " AND dashboard.org_id=$1 AND dashboard.id>=$2 ORDER BY dashboard.id asc LIMIT $3",
       [SqlArg.int query.OrgID, SqlArg.int query.MinID,
        SqlArg.int (wrapInt64 ((if query.Limit < 1 then 15 else query.Limit) + 2))],
       if query.Limit < 1 then 15 else query.Limit) := by
  have e1 : toString (1 : Nat) = "1" := by decide
  have e2 : toString (2 : Nat) = "2" := by decide
  have e3 : toString (3 : Nat) = "3" := by decide
  simp only [buildQuery, h, hm, ne_eq, not_true_eq_false, if_false, if_true, List.length_cons,
    List.length_nil, List.length_append, List.cons_append, List.nil_append, e1, e2, e3,
    String.append_assoc]
  rfl

theorem buildQuery_plain (query : DashboardQuery) (h : query.UID = "") (hm : ¬ query.MinID > 0) :
    buildQuery query =
      (selector ++ " AND dashboard.org_id=$1 ORDER BY dashboard.id asc LIMIT $2",
       [SqlArg.int query.OrgID,
        SqlArg.int (wrapInt64 ((if query.Limit < 1 then 15 else query.Limit) + 2))],
       if query.Limit < 1 then 15 else query.Limit) := by
  have e1 : toString (1 : Nat) = "1" := by decide
  have e2 : toString (2 : Nat) = "2" := by decide
  simp only [buildQuery, h, hm, ne_eq, not_true_eq_false, if_false, List.length_cons,
    List.length_nil, List.length_append, List.cons_append, List.nil_append, e1, e2,
    String.append_assoc]
  rfl

theorem buildQuery_text (query : DashboardQuery) :
    (buildQuery query).1 = selector ++ String.join ((queryConds query).map Cond.render) ++
      " ORDER BY dashboard.id asc LIMIT $" ++ toString ((queryConds query).length + 1) := by
  by_cases h : query.UID = ""
  · by_cases h2 : query.MinID > 0
    · simp [buildQuery, queryConds, h, h2, Cond.render, String.join, String.append_assoc]
    · simp [buildQuery, queryConds, h, h2, Cond.render, String.join, String.append_assoc]
  · simp [buildQuery, queryConds, h, Cond.render, String.join, String.append_assoc]

theorem buildQuery_limit (query : DashboardQuery) :
    (buildQuery query).2.2 = (if query.Limit < 1 then 15 else query.Limit) ∧
      (buildQuery query).2.1.getLast? =
        some (SqlArg.int (wrapInt64 ((if query.Limit < 1 then 15 else query.Limit) + 2))) := by
  by_cases h : query.UID = ""
  · by_cases h2 : query.MinID > 0
    · rw [buildQuery_minID query h h2]
      simp
    · rw [buildQuery_plain query h h2]
      simp
  · rw [buildQuery_uid query h]
    simp

theorem getRows_issues_buildQuery (a : dashboardSqlAccess σ) (s : σ) (ctx : Context)
    (query : DashboardQuery) (hl : query.Labels = []) (hr : ctx.requesterErr = none) :
    ∃ rest, (a.getRows s ctx query).1 =
      Event.query (buildQuery query).1 (buildQuery query).2.1 :: rest := by
  unfold dashboardSqlAccess.getRows
  simp only [hl, List.length_nil, gt_iff_lt, lt_self_iff_false, if_false]
  unfold dashboardSqlAccess.doQuery
  simp only [hr]
  rcases a.sess s (buildQuery query).1 (buildQuery query).2.1 with ⟨rows, err⟩
  rcases err with _ | e
  · exact ⟨[], rfl⟩
  · rcases rows with _ | rs
    · exact ⟨[], rfl⟩
    · exact ⟨[Event.close], rfl⟩

/-- C11, as stated, fails: the query built for `MinID = 12` (empty UID) carries the
condition `dashboard.id>=$2` with 12 bound to `$2`, and it selects the row of org 1 whose
id is 12 itself, which is not strictly greater than 12. -/
theorem resume_from_token_counterexample :
    ({ OrgID := 1, MinID := 12 } : DashboardQuery).UID = "" ∧
      (buildQuery { OrgID := 1, MinID := 12 }).1 =
        selector ++
          " AND dashboard.org_id=$1 AND dashboard.id>=$2 ORDER BY dashboard.id asc LIMIT $3" ∧
      (buildQuery { OrgID := 1, MinID := 12 }).2.1 =
        [SqlArg.int 1, SqlArg.int 12, SqlArg.int 17] ∧
      selects { OrgID := 1, MinID := 12 } { org_id := 1, id := 12, uid := "b" } = true ∧
      ¬ ((12 : Int) < ({ org_id := 1, id := 12, uid := "b" } : SqlRow).id) := by
  have hq := buildQuery_minID { OrgID := 1, MinID := 12 } rfl (by decide)
  refine ⟨rfl, by rw [hq], by rw [hq]; decide, ?_, by decide⟩
  unfold selects
  rw [hq]
  decide

/-- C11, amended: for every query with empty UID and `MinID = N > 0`, the query `getRows`
builds carries the condition `dashboard.id>=$2` with `N` bound to `$2`; it selects exactly
the rows of the organization whose id is at least `N`, so every selected row has id greater
than or equal to `N` and the row with id `N` is selected again. -/
theorem resume_from_token_inclusive (query : DashboardQuery) (row : SqlRow)
    (hu : query.UID = "") (hm : query.MinID > 0) :
    (buildQuery query).1 =
        selector ++
          " AND dashboard.org_id=$1 AND dashboard.id>=$2 ORDER BY dashboard.id asc LIMIT $3" ∧
      (buildQuery query).2.1[1]? = some (SqlArg.int query.MinID) ∧
      (selects query row = true ↔ row.org_id = query.OrgID ∧ query.MinID ≤ row.id) := by
  have hq := buildQuery_minID query hu hm
  refine ⟨by rw [hq], by rw [hq]; rfl, ?_⟩
  unfold selects
  rw [hq]
  simp only [queryConds, hu, hm, ne_eq, not_true_eq_false, if_false, if_true, List.all_cons,
    List.all_nil, Bool.and_true, Cond.holds, Bool.and_eq_true]
  constructor
  · rintro ⟨h1, h2⟩
    simp at h1 h2
    exact ⟨h1.symm, h2⟩
  · rintro ⟨h1, h2⟩
    simp [h1, h2]

theorem resume_from_token_inclusive_witness :
    (buildQuery { OrgID := 1, MinID := 12 }).1 =
        selector ++
          " AND dashboard.org_id=$1 AND dashboard.id>=$2 ORDER BY dashboard.id asc LIMIT $3" ∧
      (buildQuery { OrgID := 1, MinID := 12 }).2.1[1]? = some (SqlArg.int 12) ∧
      (selects { OrgID := 1, MinID := 12 } { org_id := 1, id := 13, uid := "c" } = true ↔
        (1 : Int) = 1 ∧ (12 : Int) ≤ 13) :=
  resume_from_token_inclusive { OrgID := 1, MinID := 12 } { org_id := 1, id := 13, uid := "c" }
    rfl (by decide)

/-- C16: for every label-free query, whenever `getRows` returns, the page size it returns
is `query.Limit` when `query.Limit >= 1` and the default 15 otherwise, hence at least 1;
it returns that page size with the wrapper whenever the query did not fail, and it fails to
return only when the session answered with an error and no cursor. -/
theorem getRows_page_size (a : dashboardSqlAccess σ) (s : σ) (ctx : Context)
    (query : DashboardQuery) (hl : query.Labels = []) :
    (∀ res, (a.getRows s ctx query).2 = Outcome.ret res →
        res.limit = (if 1 ≤ query.Limit then query.Limit else 15) ∧ 1 ≤ res.limit) ∧
      ((a.doQuery s ctx (buildQuery query).1 (buildQuery query).2.1).2.2 = none →
        ∃ w, (a.getRows s ctx query).2 =
          Outcome.ret ⟨w, if 1 ≤ query.Limit then query.Limit else 15, none⟩) ∧
      (∀ msg, (a.getRows s ctx query).2 = Outcome.fault msg →
        ctx.requesterErr = none ∧
          ∃ e, a.sess s (buildQuery query).1 (buildQuery query).2.1 = (none, some e)) := by
  have hlim : (buildQuery query).2.2 = (if 1 ≤ query.Limit then query.Limit else 15) := by
    rw [(buildQuery_limit query).1]
    by_cases h : query.Limit < 1
    · have h2 : ¬ (1 ≤ query.Limit) := by omega
      simp [h, h2]
    · have h2 : 1 ≤ query.Limit := by omega
      simp [h, h2]
  have hpos : 1 ≤ (if 1 ≤ query.Limit then query.Limit else 15) := by
    by_cases h : 1 ≤ query.Limit
    · simp [h]
    · simp [h]
  unfold dashboardSqlAccess.getRows
  simp only [hl, List.length_nil, gt_iff_lt, lt_self_iff_false, if_false]
  unfold dashboardSqlAccess.doQuery
  rcases hreq : ctx.requesterErr with _ | re
  · simp only []
    rcases hsess : a.sess s (buildQuery query).1 (buildQuery query).2.1 with ⟨rows, err⟩
    rcases err with _ | e
    · refine ⟨?_, ?_, ?_⟩
      · intro res hres
        simp only [Outcome.ret.injEq] at hres
        subst hres
        simp only [hlim]
        exact ⟨trivial, hpos⟩
      · intro _
        exact ⟨some { a := a, rows := rows, canReadDashboard := fun _ => true },
          by simp only [hlim]⟩
      · intro msg hmsg
        simp at hmsg
    · rcases rows with _ | rs
      · refine ⟨?_, ?_, ?_⟩
        · intro res hres
          simp [rowsWrapper.Close] at hres
        · intro hnone
          simp at hnone
        · intro msg _
          exact ⟨trivial, e, rfl⟩
      · refine ⟨?_, ?_, ?_⟩
        · intro res hres
          simp only [rowsWrapper.Close, Outcome.ret.injEq] at hres
          subst hres
          simp only [hlim]
          exact ⟨trivial, hpos⟩
        · intro hnone
          simp at hnone
        · intro msg hmsg
          simp [rowsWrapper.Close] at hmsg
  · refine ⟨?_, ?_, ?_⟩
    · intro res hres
      simp only [Outcome.ret.injEq] at hres
      subst hres
      simp only [hlim]
      exact ⟨trivial, hpos⟩
    · intro hnone
      simp at hnone
    · intro msg hmsg
      simp at hmsg

theorem getRows_page_size_witness :
    (∀ res, (sampleAccess.getRows 0 {} { OrgID := 1, Limit := 0 }).2 = Outcome.ret res →
        res.limit = (if (1 : Int) ≤ 0 then 0 else 15) ∧ 1 ≤ res.limit) ∧
      ((sampleAccess.doQuery 0 {} (buildQuery { OrgID := 1, Limit := 0 }).1
          (buildQuery { OrgID := 1, Limit := 0 }).2.1).2.2 = none →
        ∃ w, (sampleAccess.getRows 0 {} { OrgID := 1, Limit := 0 }).2 =
          Outcome.ret ⟨w, if (1 : Int) ≤ 0 then 0 else 15, none⟩) ∧
      (∀ msg, (sampleAccess.getRows 0 {} { OrgID := 1, Limit := 0 }).2 = Outcome.fault msg →
        ({} : Context).requesterErr = none ∧
          ∃ e, sampleAccess.sess 0 (buildQuery { OrgID := 1, Limit := 0 }).1
            (buildQuery { OrgID := 1, Limit := 0 }).2.1 = (none, some e)) :=
  getRows_page_size sampleAccess 0 {} { OrgID := 1, Limit := 0 } rfl

/-- C17, as stated, fails: for `Limit = 9223372036854775807` the page size is that number,
and the limit bound to the query is `-9223372036854775807` (the 64-bit sum wraps), which is
not the page size plus 2 and not more than one page. -/
theorem over_fetch_counterexample :
    ({ OrgID := 1, Limit := 9223372036854775807 } : DashboardQuery).Labels = [] ∧
      (buildQuery { OrgID := 1, Limit := 9223372036854775807 }).2.2 = 9223372036854775807 ∧
      (buildQuery { OrgID := 1, Limit := 9223372036854775807 }).2.1.getLast? =
        some (SqlArg.int (-9223372036854775807)) := by
  have hq := buildQuery_limit { OrgID := 1, Limit := 9223372036854775807 }
  refine ⟨rfl, ?_, ?_⟩
  · rw [hq.1]
    decide
  · rw [hq.2]
    decide

/-- C17, amended: for every label-free query whose `Limit` is at most `2^63 - 3`, the last
argument `getRows` binds, the one the `LIMIT` placeholder refers to, is exactly the
effective page size plus 2, strictly more than one page. -/
theorem over_fetch_by_two (query : DashboardQuery) (h : query.Limit ≤ 2 ^ 63 - 3) :
    (buildQuery query).2.1.getLast? = some (SqlArg.int ((buildQuery query).2.2 + 2)) ∧
      (buildQuery query).2.2 < (buildQuery query).2.2 + 2 ∧
      (buildQuery query).1 =
        selector ++ String.join ((queryConds query).map Cond.render) ++
          " ORDER BY dashboard.id asc LIMIT $" ++ toString (buildQuery query).2.1.length := by
  obtain ⟨hp, hlast⟩ := buildQuery_limit query
  have hrange : inInt64 ((if query.Limit < 1 then 15 else query.Limit) + 2) := by
    unfold inInt64
    by_cases hl : query.Limit < 1
    · simp only [hl, if_true]
      norm_num
    · simp only [hl, if_false]
      norm_num at h ⊢
      omega
  have hlen : (buildQuery query).2.1.length = (queryConds query).length + 1 := by
    by_cases hu : query.UID = ""
    · by_cases hm : query.MinID > 0
      · rw [buildQuery_minID query hu hm]
        simp [queryConds, hu, hm]
      · rw [buildQuery_plain query hu hm]
        simp [queryConds, hu, hm]
    · rw [buildQuery_uid query hu]
      simp [queryConds, hu]
  refine ⟨?_, by omega, ?_⟩
  · rw [hlast, hp, wrapInt64_of_inInt64 _ hrange]
  · rw [hlen]
    exact buildQuery_text query

theorem over_fetch_by_two_witness :
    (buildQuery { OrgID := 1, Limit := 50 }).2.1.getLast? =
        some (SqlArg.int ((buildQuery { OrgID := 1, Limit := 50 }).2.2 + 2)) ∧
      (buildQuery { OrgID := 1, Limit := 50 }).2.2 <
        (buildQuery { OrgID := 1, Limit := 50 }).2.2 + 2 ∧
      (buildQuery { OrgID := 1, Limit := 50 }).1 =
        selector ++
          String.join ((queryConds { OrgID := 1, Limit := 50 }).map Cond.render) ++
          " ORDER BY dashboard.id asc LIMIT $" ++
          toString (buildQuery { OrgID := 1, Limit := 50 }).2.1.length :=
  over_fetch_by_two { OrgID := 1, Limit := 50 } (by decide)

/-- C20, as stated, fails: for a query with UID `abc` and `Limit = 9223372036854775807`
the page size is that number and the arguments are `[1, "abc", -9223372036854775807]`: the
last one is the wrapped 64-bit sum, not the page size plus 2. -/
theorem uid_arguments_counterexample :
    ({ OrgID := 1, UID := "abc", Limit := 9223372036854775807 } : DashboardQuery).Labels = [] ∧
      (buildQuery { OrgID := 1, UID := "abc", Limit := 9223372036854775807 }).2.2 =
        9223372036854775807 ∧
      (buildQuery { OrgID := 1, UID := "abc", Limit := 9223372036854775807 }).2.1 =
        [SqlArg.int 1, SqlArg.str "abc", SqlArg.int (-9223372036854775807)] ∧
      (buildQuery { OrgID := 1, UID := "abc", Limit := 9223372036854775807 }).2.1 ≠
        [SqlArg.int 1, SqlArg.str "abc", SqlArg.int (9223372036854775807 + 2)] := by
  have hq := buildQuery_uid { OrgID := 1, UID := "abc", Limit := 9223372036854775807 }
    (by decide)
  refine ⟨rfl, ?_, ?_, ?_⟩
  · rw [hq]
    decide
  · rw [hq]
    decide
  · rw [hq]
    decide

/-- C20, amended: for every query whose `Limit` is at most `2^63 - 3`, the text and
arguments `getRows` builds are: with a non-empty UID, the org and uid conditions with
arguments exactly `[OrgID, UID, pageSize + 2]` and no condition on the row id, whatever
`MinID` is; with an empty UID and `MinID > 0`, the org condition and `dashboard.id>=$2` with
`[OrgID, MinID, pageSize + 2]`; otherwise the org condition alone with
`[OrgID, pageSize + 2]`; the placeholders are numbered 1..n in the order of the n arguments.
For a label-free query with a requester in the context this is the query handed to the
session. -/
theorem uid_takes_precedence (query : DashboardQuery) (hlim : query.Limit ≤ 2 ^ 63 - 3) :
    (query.UID ≠ "" →
        buildQuery query =
          (selector ++
            " AND dashboard.org_id=$1 AND dashboard.uid=$2 ORDER BY dashboard.id asc LIMIT $3",
           [SqlArg.int query.OrgID, SqlArg.str query.UID,
            SqlArg.int ((buildQuery query).2.2 + 2)],
           if query.Limit < 1 then 15 else query.Limit)) ∧
      (query.UID = "" → query.MinID > 0 →
        buildQuery query =
          (selector ++
            " AND dashboard.org_id=$1 AND dashboard.id>=$2 ORDER BY dashboard.id asc LIMIT $3",
           [SqlArg.int query.OrgID, SqlArg.int query.MinID,
            SqlArg.int ((buildQuery query).2.2 + 2)],
           if query.Limit < 1 then 15 else query.Limit)) ∧
      (query.UID = "" → ¬ query.MinID > 0 →
        buildQuery query =
          (selector ++ " AND dashboard.org_id=$1 ORDER BY dashboard.id asc LIMIT $2",
           [SqlArg.int query.OrgID, SqlArg.int ((buildQuery query).2.2 + 2)],
           if query.Limit < 1 then 15 else query.Limit)) ∧
      (query.UID ≠ "" → queryConds query = [Cond.orgEq 1, Cond.uidEq 2]) ∧
      (Cond.idGe 2 ∈ queryConds query ↔ query.UID = "" ∧ query.MinID > 0) ∧
      (∀ (σ : Type) (a : dashboardSqlAccess σ) (s : σ) (ctx : Context),
        query.Labels = [] → ctx.requesterErr = none →
          ∃ rest, (a.getRows s ctx query).1 =
            Event.query (buildQuery query).1 (buildQuery query).2.1 :: rest) := by
  have hp := (buildQuery_limit query).1
  have hrange : inInt64 ((if query.Limit < 1 then 15 else query.Limit) + 2) := by
    unfold inInt64
    by_cases hl : query.Limit < 1
    · simp only [hl, if_true]
      norm_num
    · simp only [hl, if_false]
      norm_num at hlim ⊢
      omega
  have hw := wrapInt64_of_inInt64 _ hrange
  refine ⟨?_, ?_, ?_, ?_, ?_, ?_⟩
  · intro h
    have hq := buildQuery_uid query h
    rw [hw] at hq
    rw [hp]
    exact hq
  · intro h hm
    have hq := buildQuery_minID query h hm
    rw [hw] at hq
    rw [hp]
    exact hq
  · intro h hm
    have hq := buildQuery_plain query h hm
    rw [hw] at hq
    rw [hp]
    exact hq
  · intro h
    simp [queryConds, h]
  · by_cases h : query.UID = ""
    · by_cases hm : query.MinID > 0
      · simp [queryConds, h, hm]
      · simp [queryConds, h, hm]
    · simp [queryConds, h]
  · intro σ a s ctx hl hr
    exact getRows_issues_buildQuery a s ctx query hl hr

theorem uid_takes_precedence_witness :
    ({ OrgID := 1, UID := "abc", MinID := 12, Limit := 50 } : DashboardQuery).UID ≠ "" ∧
      buildQuery { OrgID := 1, UID := "abc", MinID := 12, Limit := 50 } =
        (selector ++
          " AND dashboard.org_id=$1 AND dashboard.uid=$2 ORDER BY dashboard.id asc LIMIT $3",
         [SqlArg.int 1, SqlArg.str "abc",
          SqlArg.int ((buildQuery { OrgID := 1, UID := "abc", MinID := 12, Limit := 50 }).2.2
            + 2)],
         if (50 : Int) < 1 then 15 else 50) ∧
      (buildQuery { OrgID := 1, UID := "abc", MinID := 12, Limit := 50 }).2.2 + 2 = 52 :=
  ⟨by decide,
    (uid_takes_precedence { OrgID := 1, UID := "abc", MinID := 12, Limit := 50 }
      (by decide)).1 (by decide),
    by
      rw [(buildQuery_limit { OrgID := 1, UID := "abc", MinID := 12, Limit := 50 }).1]
      decide⟩

end QueryText

/-! ## Failure of the query, owners, origin, configuration -/

section Decoding
variable {σ : Type}

theorem setOwners_originInfo (m : GrafanaMeta) (c u : Int) :
    (setOwners m c u).originInfo = m.originInfo := by
  unfold setOwners
  split_ifs <;> rfl

theorem setFolder_originInfo (m : GrafanaMeta) (f : Option String) :
    (setFolder m f).originInfo = m.originInfo := by
  unfold setFolder
  cases f <;> rfl

theorem setOwners_both_positive (m : GrafanaMeta) (c u : Int) (hc : 0 < c) (hu : 0 < u) :
    (setOwners m c u).createdBy = some ⟨IdentityNamespace.NamespaceUser, u⟩ ∧
      (setOwners m c u).updatedBy = m.updatedBy := by
  unfold setOwners
  simp [hc, hu]

theorem setFolder_owners (m : GrafanaMeta) (f : Option String) :
    (setFolder m f).createdBy = m.createdBy ∧ (setFolder m f).updatedBy = m.updatedBy := by
  unfold setFolder
  cases f <;> exact ⟨rfl, rfl⟩

theorem setOriginInfo_fields (m : GrafanaMeta) (info : ResourceOriginInfo) :
    (setOriginInfo m info).originInfo = recordedOrigin (some info) ∧
      (setOriginInfo m info).createdBy = m.createdBy ∧
      (setOriginInfo m info).updatedBy = m.updatedBy := by
  unfold setOriginInfo recordedOrigin
  by_cases h : info.Name = "" <;> simp [h]

/-- The metadata of a row that `scanRow` hands back after a successful `rows.Scan`. -/
theorem scanRow_meta (a : dashboardSqlAccess σ) (raw : SqlRow) (d : dashboardRow)
    (e : Option Error) (hs : a.scanRow raw = (some d, e)) (h : raw.scanErr = none) :
    ∃ origin, originOf a raw = .ok origin ∧
      d.Dash.Annotations.originInfo = recordedOrigin origin ∧
      d.Dash.Annotations.createdBy =
        (setOwners { updatedTimestamp := some raw.updated, slug := some raw.slug }
          raw.created_by raw.updated_by).createdBy ∧
      d.Dash.Annotations.updatedBy =
        (setOwners { updatedTimestamp := some raw.updated, slug := some raw.slug }
          raw.created_by raw.updated_by).updatedBy := by
  unfold dashboardSqlAccess.scanRow at hs
  simp only [h] at hs
  split at hs
  · simp at hs
  · split at hs
    · simp at hs
    · next origin horigin =>
      refine ⟨origin, horigin, ?_⟩
      have key : ∀ m0 : GrafanaMeta, m0.originInfo = none →
          (match origin with
            | some info => setOriginInfo m0 info
            | none => m0).originInfo = recordedOrigin origin ∧
          (match origin with
            | some info => setOriginInfo m0 info
            | none => m0).createdBy = m0.createdBy ∧
          (match origin with
            | some info => setOriginInfo m0 info
            | none => m0).updatedBy = m0.updatedBy := by
        intro m0 hm0
        cases origin with
        | none => exact ⟨hm0, rfl, rfl⟩
        | some info => exact setOriginInfo_fields m0 info
      have hk0 := key
        (setFolder (setOwners { updatedTimestamp := some raw.updated, slug := some raw.slug }
          raw.created_by raw.updated_by) raw.folder_uid)
        (by rw [setFolder_originInfo, setOwners_originInfo])
      have hk := And.intro hk0.1
        (And.intro (hk0.2.1.trans (setFolder_owners _ raw.folder_uid).1)
          (hk0.2.2.trans (setFolder_owners _ raw.folder_uid).2))
      split at hs
      · split at hs
        · simp only [Prod.mk.injEq, Option.some.injEq] at hs
          rw [← hs.1]
          exact hk
        · simp only [Prod.mk.injEq, Option.some.injEq] at hs
          rw [← hs.1]
          exact hk
      · simp only [Prod.mk.injEq, Option.some.injEq] at hs
        rw [← hs.1]
        exact hk

/-- C12, evaluated at the failing input: when the SQL session answers a label-free query
with an error and no cursor, `getRows` hands the query to the session and then faults with
a nil pointer dereference in `Close` instead of returning the error; this is so for every
access layer, state and query. When the session returns a cursor along with the error, the
cursor is closed and the error is returned with a nil row producer. -/
theorem getRows_faults_without_cursor :
    failingAccess.sess 0 (buildQuery { OrgID := 1 }).1 (buildQuery { OrgID := 1 }).2.1 =
        (none, some "connection refused") ∧
      (failingAccess.getRows 0 {} { OrgID := 1 }).2 = Outcome.fault "nil pointer dereference" ∧
      (failingAccess.getRows 0 {} { OrgID := 1 }).1 =
        [Event.query (buildQuery { OrgID := 1 }).1 (buildQuery { OrgID := 1 }).2.1] ∧
      (∀ (σ : Type) (a : dashboardSqlAccess σ) (s : σ) (ctx : Context) (query : DashboardQuery)
          (e : Error),
        query.Labels = [] → ctx.requesterErr = none →
        a.sess s (buildQuery query).1 (buildQuery query).2.1 = (none, some e) →
          (a.getRows s ctx query).2 = Outcome.fault "nil pointer dereference") ∧
      (∀ (σ : Type) (a : dashboardSqlAccess σ) (s : σ) (ctx : Context) (query : DashboardQuery)
          (rs : List SqlRow) (e : Error),
        query.Labels = [] → ctx.requesterErr = none →
        a.sess s (buildQuery query).1 (buildQuery query).2.1 = (some rs, some e) →
          ∃ res, (a.getRows s ctx query).2 = Outcome.ret res ∧ res.rows.isNone = true ∧
            res.err = some e ∧
            (a.getRows s ctx query).1 =
              [Event.query (buildQuery query).1 (buildQuery query).2.1, Event.close]) := by
  refine ⟨rfl, rfl, rfl, ?_, ?_⟩
  · intro σ a s ctx query e hl hr hsess
    simp [dashboardSqlAccess.getRows, dashboardSqlAccess.doQuery, hl, hr, hsess,
      rowsWrapper.Close]
  · intro σ a s ctx query rs e hl hr hsess
    simp [dashboardSqlAccess.getRows, dashboardSqlAccess.doQuery, hl, hr, hsess,
      rowsWrapper.Close]

/-- C13, evaluated at the failing input: for a row created by user 1 and last updated by
user 2, `scanRow` records user 2 as the creator and records no last updater; the same
happens for every decoded row whose `created_by` and `updated_by` are both positive. -/
theorem scanRow_overwrites_creator :
    (sampleAccess.scanRow ownedRow).2 = none ∧
      (sampleAccess.scanRow ownedRow).1.map
          (fun d => (d.Dash.Annotations.createdBy, d.Dash.Annotations.updatedBy)) =
        some (some ⟨IdentityNamespace.NamespaceUser, 2⟩, none) ∧
      (∀ (σ : Type) (a : dashboardSqlAccess σ) (raw : SqlRow) (d : dashboardRow)
          (e : Option Error),
        a.scanRow raw = (some d, e) → raw.scanErr = none →
        0 < raw.created_by → 0 < raw.updated_by →
          d.Dash.Annotations.createdBy =
              some ⟨IdentityNamespace.NamespaceUser, raw.updated_by⟩ ∧
            d.Dash.Annotations.updatedBy = none) := by
  refine ⟨rfl, rfl, ?_⟩
  intro σ a raw d e hs h hc hu
  obtain ⟨_, _, _, hcb, hub⟩ := scanRow_meta a raw d e hs h
  obtain ⟨h1, h2⟩ := setOwners_both_positive
    { updatedTimestamp := some raw.updated, slug := some raw.slug }
    raw.created_by raw.updated_by hc hu
  exact ⟨hcb.trans h1, hub.trans h2⟩

/-- C14, as stated, fails: for a row whose `origin_name` is present but empty (and that
names a plugin), `scanRow` takes the provisioning branch and `SetOriginInfo` records nothing
for the empty name: the row decodes without error and carries no origin at all. -/
theorem origin_empty_name_counterexample :
    emptyOriginRow.origin_name = some "" ∧ emptyOriginRow.plugin_id = "my-plugin" ∧
      (provisioningAccess.scanRow emptyOriginRow).2 = none ∧
      (provisioningAccess.scanRow emptyOriginRow).1.map
          (fun d => d.Dash.Annotations.originInfo) = some none := by
  refine ⟨rfl, rfl, by rfl, by rfl⟩

/-- C14, amended: for every row that `rows.Scan` read and `scanRow` hands back, the origin
recorded is: when `origin_name` is present and not empty, the provisioning origin (that
name, the path relative to the provisioner's resolved path, the content hash and the
timestamp), whether or not a plugin id is set; when `origin_name` is present but empty, no
origin; when `origin_name` is absent and `plugin_id` is non-empty, the plugin origin (name
"plugin", path the plugin id, nothing else); and no origin otherwise. -/
theorem scanRow_origin_exclusive (a : dashboardSqlAccess σ) (raw : SqlRow) (d : dashboardRow)
    (e : Option Error) (hs : a.scanRow raw = (some d, e)) (h : raw.scanErr = none) :
    (∀ name, raw.origin_name = some name → name ≠ "" →
        ∃ path, a.filepathRel (a.provisioning name) (raw.origin_path.getD "") = .ok path ∧
          d.Dash.Annotations.originInfo =
            some { Name := name, Path := path, Hash := raw.origin_key.getD "",
                   Timestamp := some (timeUnix (raw.origin_ts.getD 0)) }) ∧
      (raw.origin_name = some "" → d.Dash.Annotations.originInfo = none) ∧
      (raw.origin_name = none → raw.plugin_id ≠ "" →
        d.Dash.Annotations.originInfo =
          some { Name := "plugin", Path := raw.plugin_id, Hash := "", Timestamp := none }) ∧
      (raw.origin_name = none → raw.plugin_id = "" → d.Dash.Annotations.originInfo = none) := by
  obtain ⟨origin, horigin, hinfo, _, _⟩ := scanRow_meta a raw d e hs h
  rw [hinfo]
  unfold originOf at horigin
  refine ⟨?_, ?_, ?_, ?_⟩
  · intro name hname hne
    rw [hname] at horigin
    simp only at horigin
    rcases hrel : a.filepathRel (a.provisioning name) (raw.origin_path.getD "") with err | path
    · rw [hrel] at horigin
      simp at horigin
    · rw [hrel] at horigin
      simp only [Except.ok.injEq] at horigin
      refine ⟨path, rfl, ?_⟩
      rw [← horigin]
      simp [recordedOrigin, hne]
  · intro hname
    rw [hname] at horigin
    simp only at horigin
    rcases hrel : a.filepathRel (a.provisioning "") (raw.origin_path.getD "") with err | path
    · rw [hrel] at horigin
      simp at horigin
    · rw [hrel] at horigin
      simp only [Except.ok.injEq] at horigin
      rw [← horigin]
      simp [recordedOrigin]
  · intro hnone hplugin
    rw [hnone] at horigin
    simp only [hplugin, ne_eq, not_false_eq_true, if_true, Except.ok.injEq] at horigin
    rw [← horigin]
    simp [recordedOrigin]
  · intro hnone hplugin
    rw [hnone] at horigin
    simp only [hplugin, ne_eq, not_true_eq_false, if_false, Except.ok.injEq] at horigin
    rw [← horigin]
    rfl

theorem scanRow_origin_exclusive_witness :
    provisioningAccess.scanRow provisionedRow = (some provisionedDecoded, none) ∧
      provisionedRow.origin_name = some "files" ∧ provisionedRow.plugin_id = "my-plugin" ∧
      ∃ path, provisioningAccess.filepathRel (provisioningAccess.provisioning "files")
          (provisionedRow.origin_path.getD "") = .ok path ∧
        provisionedDecoded.Dash.Annotations.originInfo =
          some { Name := "files", Path := path, Hash := provisionedRow.origin_key.getD "",
                 Timestamp := some (timeUnix (provisionedRow.origin_ts.getD 0)) } :=
  ⟨by rfl, rfl, rfl,
    (scanRow_origin_exclusive provisioningAccess provisionedRow provisionedDecoded none
      (by rfl) rfl).1 "files" rfl (by decide)⟩

/-- C18, evaluated at the failing input: for a cloud configuration (non-empty StackID,
valid mode) that sets the client token but leaves the token exchange URL empty, `ReadCfg`
succeeds; it rejects the configuration only when both are empty, and in general, with a
valid mode and a non-empty StackID, it succeeds exactly when at least one of the two is
set. -/
theorem ReadCfg_accepts_one_missing :
    authz.cloudCfgTokenOnly.StackID ≠ "" ∧
      authz.ReadCfg authz.plainQuote "development" authz.cloudCfgTokenOnly =
        .ok { remoteAddress := "authz:10000", listen := false, mode := "grpc",
              token := "secret", tokenExchangeURL := "", tokenNamespace := "stack-34",
              allowInsecure := false } ∧
      authz.ReadCfg authz.plainQuote "development" authz.cloudCfgNoToken =
        .error "authorization: missing token or tokenExchangeUrl" ∧
      (∀ (quote : String → String) (Dev : String) (cfg : authz.SettingCfg),
        authz.Mode.IsValid
            ((cfg.SectionWithEnvOverrides "authorization").MustString "mode" authz.ModeInProc)
          = true →
        cfg.StackID ≠ "" →
          ((∃ c, authz.ReadCfg quote Dev cfg = .ok c) ↔
            ¬ ((cfg.SectionWithEnvOverrides "grpc_client_authentication").MustString "token" ""
                  = "" ∧
                (cfg.SectionWithEnvOverrides "grpc_client_authentication").MustString
                  "token_exchange_url" "" = ""))) := by
  refine ⟨by decide, rfl, rfl, ?_⟩
  intro quote Dev cfg hmode hstack
  unfold authz.ReadCfg
  simp only [hmode, Bool.not_true, Bool.false_eq_true, if_false, hstack, ne_eq,
    not_false_eq_true, true_and]
  constructor
  · rintro ⟨c, hc⟩ hboth
    simp [hboth] at hc
  · intro hnot
    simp [hnot]

end Decoding

/-! ## The row producer over all calls -/

section Producer
variable {σ : Type}

theorem scanRow_nil_has_error (a : dashboardSqlAccess σ) (raw : SqlRow) (err : Option Error)
    (hs : a.scanRow raw = (none, err)) : err ≠ none := by
  intro herr
  subst herr
  unfold dashboardSqlAccess.scanRow at hs
  dsimp only at hs
  repeat' split at hs
  all_goals simp at hs

theorem after_succ (r : rowsWrapper σ) (rs : List SqlRow) (n : Nat) (h : r.rows = some rs) :
    r.after (n + 1) =
      rowsWrapper.after n
        { r with rows := some (nextLoop r.a r.canReadDashboard rs r.idx r.total).rest,
                 idx := (nextLoop r.a r.canReadDashboard rs r.idx r.total).idx,
                 total := (nextLoop r.a r.canReadDashboard rs r.idx r.total).total } := by
  simp [rowsWrapper.after, rowsWrapper.Next, h]

theorem pull_exhausted (m : Nat) (r : rowsWrapper σ) (h : r.rows = some []) :
    ∀ y ∈ r.pull m, y.row = none ∧ y.err = none := by
  induction m generalizing r with
  | zero => simp [rowsWrapper.pull]
  | succ m ih =>
    rw [pull_succ r [] m h]
    intro y hy
    rcases List.mem_cons.mp hy with rfl | hy
    · simp [nextLoop]
    · exact ih _ (by simp [nextLoop]) y hy

/-- The bookkeeping of one call of `Next`: the total grows by the size of the row handed
out, if any, and that row carries the previous total as its offset. -/
theorem nextLoop_total (a : dashboardSqlAccess σ) (can : List String → Bool)
    (rs : List SqlRow) (idx : Nat) (total : Int) :
    (nextLoop a can rs idx total).total =
        addBytes total
          (returnedBytes [⟨(nextLoop a can rs idx total).idx, (nextLoop a can rs idx total).row,
            (nextLoop a can rs idx total).err⟩]) ∧
      ∀ d, (nextLoop a can rs idx total).row = some d → d.token.bytes = total := by
  obtain ⟨pre, _, hcase⟩ := nextLoop_spec a can rs idx total
  rcases hcase with ⟨_, hnl⟩ | ⟨raw, post, _, _, hcase⟩
  · rw [hnl]
    simp [returnedBytes, addBytes]
  · rcases hcase with ⟨d0, err, _, hnl⟩ | ⟨err, _, hnl⟩
    · rw [hnl]
      refine ⟨by simp [returnedBytes, addBytes, withOffset], ?_⟩
      intro d hd
      simp only [Option.some.injEq] at hd
      rw [← hd]
      rfl
    · rw [hnl]
      simp [returnedBytes, addBytes]

theorem addBytes_append (t : Int) (xs ys : List Int) :
    addBytes t (xs ++ ys) = addBytes (addBytes t xs) ys := by
  simp [addBytes, List.foldl_append]

theorem returnedBytes_cons (y : Yield) (ys : List Yield) :
    returnedBytes (y :: ys) = returnedBytes [y] ++ returnedBytes ys := by
  unfold returnedBytes
  cases h : y.row <;> simp [List.filterMap_cons, h]

/-- The running total after `m` calls, and the offset of every row handed out, in terms of
the sizes of the rows handed out before. -/
theorem pull_totals (m : Nat) (r : rowsWrapper σ) (rs : List SqlRow) (h : r.rows = some rs) :
    (r.after m).total = addBytes r.total (returnedBytes (r.pull m)) ∧
      ∀ (i : Nat) (y : Yield) (d : dashboardRow), (r.pull m)[i]? = some y → y.row = some d →
        d.token.bytes = addBytes r.total (returnedBytes ((r.pull m).take i)) := by
  induction m generalizing r rs with
  | zero =>
    refine ⟨by simp [rowsWrapper.after, rowsWrapper.pull, returnedBytes, addBytes], ?_⟩
    intro i y d hy
    simp [rowsWrapper.pull] at hy
  | succ m ih =>
    obtain ⟨htot, hoff⟩ := nextLoop_total r.a r.canReadDashboard rs r.idx r.total
    rw [pull_succ r rs m h, after_succ r rs m h]
    obtain ⟨ih1, ih2⟩ := ih
      { r with rows := some (nextLoop r.a r.canReadDashboard rs r.idx r.total).rest,
               idx := (nextLoop r.a r.canReadDashboard rs r.idx r.total).idx,
               total := (nextLoop r.a r.canReadDashboard rs r.idx r.total).total }
      (nextLoop r.a r.canReadDashboard rs r.idx r.total).rest rfl
    simp only at ih1 ih2
    refine ⟨?_, ?_⟩
    · rw [ih1, returnedBytes_cons, addBytes_append, ← htot]
    · intro i y d hy hd
      cases i with
      | zero =>
        simp only [List.getElem?_cons_zero, Option.some.injEq] at hy
        subst hy
        simp only at hd
        rw [hoff d hd]
        simp [returnedBytes, addBytes]
      | succ j =>
        simp only [List.getElem?_cons_succ] at hy
        rw [ih2 j y d hy hd, List.take_succ_cons, returnedBytes_cons, addBytes_append, ← htot]

/-- Over `m` calls on a wrapper with an open cursor: every call returns, the rows handed
out are the decodings of a sublist of the cursor rows, and `(nil, nil)` is final. -/
theorem pull_producer (m : Nat) (r : rowsWrapper σ) (rs : List SqlRow) (h : r.rows = some rs) :
    (r.pull m).length = m ∧
      (∃ sel, sel.Sublist rs ∧ List.Forall₂ (decodes r.a) sel (returnedRows (r.pull m))) ∧
      (r.pull m).Pairwise
        (fun y1 y2 => y1.row = none → y1.err = none → y2.row = none ∧ y2.err = none) := by
  induction m generalizing r rs with
  | zero =>
    exact ⟨by simp [rowsWrapper.pull],
      ⟨[], List.nil_sublist rs, by simp [rowsWrapper.pull, returnedRows]⟩,
      by simp [rowsWrapper.pull]⟩
  | succ m ih =>
    rw [pull_succ r rs m h]
    obtain ⟨pre, _, hcase⟩ := nextLoop_spec r.a r.canReadDashboard rs r.idx r.total
    rcases hcase with ⟨_, hnl⟩ | ⟨raw, post, hrs, _, hcase⟩
    · -- the cursor is exhausted
      rw [hnl]
      obtain ⟨ihlen, ⟨sel, hsel, hdec⟩, ihpair⟩ := ih
        { r with rows := some [], idx := r.idx + pre.length, total := r.total } [] rfl
      refine ⟨by simp [ihlen], ⟨sel, hsel.trans (List.nil_sublist rs), ?_⟩, ?_⟩
      · simpa [returnedRows] using hdec
      · refine List.Pairwise.cons ?_ ihpair
        intro y hy _ _
        exact pull_exhausted m _ rfl y hy
    · rcases hcase with ⟨d0, err, hs, hnl⟩ | ⟨err, hs, hnl⟩
      · -- a row is handed out
        rw [hnl]
        obtain ⟨ihlen, ⟨sel, hsel, hdec⟩, ihpair⟩ := ih
          { r with rows := some post, idx := r.idx + pre.length + 1,
                   total := wrapInt64 (r.total + d0.Bytes) } post rfl
        refine ⟨by simp [ihlen], ⟨raw :: sel, ?_, ?_⟩, ?_⟩
        · rw [hrs]
          exact (List.Sublist.cons₂ raw hsel).trans (List.sublist_append_right pre _)
        · have hd : decodes r.a raw (withOffset d0 r.total) := ⟨d0, err, hs, rfl⟩
          simpa [returnedRows] using And.intro hd hdec
        · refine List.Pairwise.cons ?_ ihpair
          intro y _ hnone
          simp at hnone
      · -- a nil row is handed out with its error
        rw [hnl]
        obtain ⟨ihlen, ⟨sel, hsel, hdec⟩, ihpair⟩ := ih
          { r with rows := some post, idx := r.idx + pre.length + 1, total := r.total } post rfl
        refine ⟨by simp [ihlen], ⟨sel, ?_, ?_⟩, ?_⟩
        · rw [hrs]
          exact hsel.trans
            ((List.sublist_cons_self raw post).trans (List.sublist_append_right pre _))
        · simpa [returnedRows] using hdec
        · refine List.Pairwise.cons ?_ ihpair
          intro y _ _ herr
          exact absurd herr (scanRow_nil_has_error r.a raw err hs)

/-- C15: for every cursor content `rs`, every access predicate and every number `m` of
calls on a fresh wrapper: each of the `m` calls of `Next` returns (the function is total and
no call faults); the non-nil rows returned, in the order returned, are the decodings of a
sublist of the cursor rows (so each cursor row is returned at most once, in cursor order),
hence at most `rs.length` of them; and once a call has returned `(nil, nil)`, every later
call returns `(nil, nil)` too. -/
theorem row_producer_finite (a : dashboardSqlAccess σ) (rs : List SqlRow)
    (can : List String → Bool) (m : Nat) :
    ((freshWrapper a rs can).pull m).length = m ∧
      (∃ sel, sel.Sublist rs ∧
        List.Forall₂ (decodes a) sel (returnedRows ((freshWrapper a rs can).pull m))) ∧
      (returnedRows ((freshWrapper a rs can).pull m)).length ≤ rs.length ∧
      ((freshWrapper a rs can).pull m).Pairwise
        (fun y1 y2 => y1.row = none → y1.err = none → y2.row = none ∧ y2.err = none) := by
  obtain ⟨hlen, ⟨sel, hsel, hdec⟩, hpair⟩ := pull_producer m (freshWrapper a rs can) rs rfl
  refine ⟨hlen, ⟨sel, hsel, hdec⟩, ?_, hpair⟩
  rw [← List.Forall₂.length_eq hdec]
  exact hsel.length_le

/-- C19: for every cursor content and access predicate, after any number `m` of calls of
`Next` on a fresh wrapper, `total` equals the sum, as Go's 64-bit addition computes it, of
`Bytes` of the rows `Next` has returned so far, and the byte offset in the token of the row
returned by the call number `i` equals that sum over the rows returned by the earlier
calls; rows that were skipped appear in neither. Whenever the mathematical sum fits in 64
bits it is that sum. -/
theorem total_counts_returned_rows (a : dashboardSqlAccess σ) (rs : List SqlRow)
    (can : List String → Bool) (m : Nat) :
    ((freshWrapper a rs can).after m).total =
        wrapInt64 ((returnedBytes ((freshWrapper a rs can).pull m)).sum) ∧
      (inInt64 ((returnedBytes ((freshWrapper a rs can).pull m)).sum) →
        ((freshWrapper a rs can).after m).total =
          (returnedBytes ((freshWrapper a rs can).pull m)).sum) ∧
      ∀ (i : Nat) (y : Yield) (d : dashboardRow),
        ((freshWrapper a rs can).pull m)[i]? = some y → y.row = some d →
          d.token.bytes =
              wrapInt64 ((returnedBytes (((freshWrapper a rs can).pull m).take i)).sum) ∧
            (inInt64 ((returnedBytes (((freshWrapper a rs can).pull m).take i)).sum) →
              d.token.bytes =
                (returnedBytes (((freshWrapper a rs can).pull m).take i)).sum) := by
  have h0 : inInt64 0 := by decide
  obtain ⟨htot, hoff⟩ := pull_totals m (freshWrapper a rs can) rs rfl
  have hfresh : (freshWrapper a rs can).total = 0 := rfl
  rw [hfresh] at htot hoff
  have e1 : ((freshWrapper a rs can).after m).total =
      wrapInt64 ((returnedBytes ((freshWrapper a rs can).pull m)).sum) := by
    rw [htot, addBytes_eq_wrap_sum 0 _ h0, zero_add]
  refine ⟨e1, ?_, ?_⟩
  · intro hr
    rw [e1, wrapInt64_of_inInt64 _ hr]
  · intro i y d hy hd
    have e2 : d.token.bytes =
        wrapInt64 ((returnedBytes (((freshWrapper a rs can).pull m).take i)).sum) := by
      rw [hoff i y d hy hd, addBytes_eq_wrap_sum 0 _ h0, zero_add]
    refine ⟨e2, ?_⟩
    intro hr
    rw [e2, wrapInt64_of_inInt64 _ hr]

end Producer

/-! ## The DingDing constructor on rejected configurations -/

section DingDing

/-- C21, evaluated at the failing input: for a config whose settings lack the `url` key and
a validator that answers `(false, nil)`, the constructor faults with a nil pointer
dereference instead of returning a `receiverInitError`; this is so for every config with
settings and every validator that answers invalid without an error value. With nil settings,
or with an error value from the validator, it returns the `receiverInitError` and no
notifier. -/
theorem NewDingDingNotifier_faults_on_invalid_without_error :
    channels.requireUrl channels.configWithoutUrl.Type_
        ⟨[("msgType", JsonValue.str "actionCard")]⟩ = (false, none) ∧
      (channels.NewDingDingNotifier channels.requireUrl channels.configWithoutUrl () ()
          : Outcome (Option (channels.DingDingNotifier Unit Unit) ×
              Option channels.receiverInitError)) =
        Outcome.fault "nil pointer dereference" ∧
      (channels.NewDingDingNotifier channels.requireUrlWithError channels.configWithoutUrl () ()
          : Outcome (Option (channels.DingDingNotifier Unit Unit) ×
              Option channels.receiverInitError)) =
        Outcome.ret (none, some { Cfg := channels.configWithoutUrl,
                                  Reason := "could not find url property in settings" }) ∧
      (∀ (τ ν : Type) (validate : String → channels.Settings → Bool × Option Error)
          (model : channels.NotificationChannelConfig) (settings : channels.Settings)
          (ns : ν) (t : τ),
        model.Settings = some settings → validate model.Type_ settings = (false, none) →
          channels.NewDingDingNotifier validate model ns t =
            Outcome.fault "nil pointer dereference") ∧
      (∀ (τ ν : Type) (validate : String → channels.Settings → Bool × Option Error)
          (model : channels.NotificationChannelConfig) (ns : ν) (t : τ),
        model.Settings = none →
          channels.NewDingDingNotifier validate model ns t =
            Outcome.ret (none, some { Cfg := model, Reason := "no settings supplied" })) ∧
      (∀ (τ ν : Type) (validate : String → channels.Settings → Bool × Option Error)
          (model : channels.NotificationChannelConfig) (settings : channels.Settings)
          (valid : Bool) (err : Error) (ns : ν) (t : τ),
        model.Settings = some settings → validate model.Type_ settings = (valid, some err) →
          channels.NewDingDingNotifier validate model ns t =
            Outcome.ret (none, some { Cfg := model, Reason := err })) := by
  refine ⟨rfl, rfl, rfl, ?_, ?_, ?_⟩
  · intro τ ν validate model settings ns t hs hv
    simp [channels.NewDingDingNotifier, hs, hv]
  · intro τ ν validate model ns t hs
    simp [channels.NewDingDingNotifier, hs]
  · intro τ ν validate model settings valid err ns t hs hv
    simp [channels.NewDingDingNotifier, hs, hv]

end DingDing

end DashboardAccess
